import Mathlib

/-!
Verification development for the waha-stack "Message Bar v2" game core.

The definitions below are a shallow embedding of the simulation layer of
`message-bar-v2/src/game` (`Customer.js`, `Bottle.js`, `Game.js`) together
with the numeric configuration from `constants.js` (`GAME_CONFIG`,
`CUSTOMER_TYPES`, `POSITIONS`).  JavaScript numbers are modelled as `Rat`
(all arithmetic in the game core is exact decimal arithmetic on small
values), wall-clock reads (`Date.now()`) are modelled by an explicit `now`
parameter, and the `Math.random()` draws of the customer constructor are
modelled by explicit parameters.  Presentation-only fields and methods
(rendering, audio, glow/hover/shake effects, the effects manager) are not
part of the model; neither are the asynchronous network calls themselves,
whose *results* enter the model as explicit inputs
(`Game.enqueueIncoming`).
-/

namespace MessageBar

/-! ## Constants (`constants.js`, `GAME_CONFIG` / `POSITIONS`) -/

def MAX_CUSTOMERS : Nat := 6
def MAX_LOST : Nat := 5
def BASE_SPAWN_INTERVAL : ℚ := 6000
def MIN_SPAWN_INTERVAL : ℚ := 2500
def PATIENCE_DECAY_RATE : ℚ := 3 / 2
def BOTTLE_COOLDOWN : ℚ := 3000
def COMBO_TIMEOUT : ℚ := 3000
def BASE_SCORE : ℤ := 100
def PATIENCE_BONUS_MULTIPLIER : ℚ := 1
def COMBO_BONUS : ℤ := 25
def API_POLL_INTERVAL : ℚ := 3000

def CUSTOMER_SPAWN_X : ℚ := 1350
def CUSTOMER_EXIT_X : ℚ := -150
def CUSTOMER_SLOTS : List ℚ := [200, 350, 500, 650, 800, 950]
def BAR_Y : ℚ := 480

/-! ## State enumerations (`CUSTOMER_STATES`, `BOTTLE_STATES`, `Game.state`) -/

inductive CustomerState where
  | walkingIn
  | idle
  | impatient
  | angry
  | happy
  | walkingOut
  | stormingOff
  deriving DecidableEq, Repr

inductive BottleState where
  | idle
  | pouring
  | empty
  | refilling
  deriving DecidableEq, Repr

inductive RoundState where
  | menu
  | playing
  | paused
  | gameover
  deriving DecidableEq, Repr

/-! ## Customer types (`CUSTOMER_TYPES`): gameplay-relevant fields only
(display name and color are presentation). -/

structure CustomerType where
  tid : String
  patience : ℚ
  walkSpeed : ℚ
  deriving DecidableEq, Repr

def CUSTOMER_TYPES : List CustomerType :=
  [ { tid := "office_worker", patience := 100, walkSpeed := 2 },
    { tid := "punk_girl", patience := 80, walkSpeed := 5 / 2 },
    { tid := "robot", patience := 120, walkSpeed := 9 / 5 },
    { tid := "business_woman", patience := 70, walkSpeed := 3 },
    { tid := "old_hacker", patience := 110, walkSpeed := 3 / 2 },
    { tid := "drone_pilot", patience := 60, walkSpeed := 7 / 2 } ]

/-! ## Customer entity (`Customer.js`) -/

structure Customer where
  cid : Nat
  type : CustomerType
  name : String
  message : String
  phone : String
  isReal : Bool
  x : ℚ
  y : ℚ
  targetX : Option ℚ
  slotIndex : Option Nat
  state : CustomerState
  patience : ℚ
  maxPatience : ℚ
  frame : Nat
  frameTimer : ℚ
  animationSpeed : ℚ
  isServed : Bool
  isLeaving : Bool
  isRemovable : Bool
  alpha : ℚ
  countedAsLost : Bool
  deriving DecidableEq, Repr

/-- JavaScript `options.name || fallback`: `undefined` and the empty string
are falsy, so both select the fallback. -/
def strOr (o : Option String) (fallback : String) : String :=
  match o with
  | some s => if s = "" then fallback else s
  | none => fallback

/-- The `Customer` constructor.  `draw` packages the `Math.random()` picks
(type from `CUSTOMER_TYPES`, demo name and demo message from the static
pools); `cid` is the value of the module-level id counter. -/
def Customer.init (cid : Nat) (ty : CustomerType) (demoName demoMessage : String)
    (oname omessage ophone : Option String) (isReal : Bool) : Customer :=
  { cid := cid
    type := ty
    name := strOr oname demoName
    message := strOr omessage demoMessage
    phone := strOr ophone ("demo_" ++ toString cid)
    isReal := isReal
    x := CUSTOMER_SPAWN_X
    y := BAR_Y - 120
    targetX := none
    slotIndex := none
    state := .walkingIn
    patience := ty.patience
    maxPatience := ty.patience
    frame := 0
    frameTimer := 0
    animationSpeed := 150
    isServed := false
    isLeaving := false
    isRemovable := false
    alpha := 1
    countedAsLost := false }

/-- `Customer.assignSlot(slotIndex)`. -/
def Customer.assignSlot (c : Customer) (slotIndex : Nat) : Customer :=
  { c with slotIndex := some slotIndex, targetX := some (CUSTOMER_SLOTS.getD slotIndex 0) }

/-- `Customer.getPatiencePercent()`. -/
def Customer.getPatiencePercent (c : Customer) : ℚ :=
  c.patience / c.maxPatience * 100

/-- `Customer.stormOff()`. -/
def Customer.stormOff (c : Customer) : Customer :=
  if c.isLeaving then c
  else { c with isLeaving := true, state := .stormingOff, frame := 0, animationSpeed := 80 }

/-- `Customer.serve()`: returns the JS boolean result together with the
updated customer. -/
def Customer.serve (c : Customer) : Bool × Customer :=
  if c.isServed || c.isLeaving then (false, c)
  else (true, { c with isServed := true, state := .happy, frame := 0, animationSpeed := 150 })

/-- The frame-timer bookkeeping at the top of `Customer.update`. -/
def Customer.advanceFrame (c : Customer) (deltaTime : ℚ) : Customer :=
  let ft := c.frameTimer + deltaTime
  if ft ≥ c.animationSpeed then { c with frameTimer := 0, frame := c.frame + 1 }
  else { c with frameTimer := ft }

/-- `Customer.updateWalkingIn(deltaTime)`. -/
def Customer.updateWalkingIn (c : Customer) (deltaTime : ℚ) : Customer :=
  match c.targetX with
  | none => c
  | some tx =>
    let speed := c.type.walkSpeed * (deltaTime / 16)
    let c := { c with x := c.x - speed * 3 }
    if c.x ≤ tx then { c with x := tx, state := .idle, frame := 0 } else c

/-- `Customer.updateWaiting(deltaTime, difficulty)`: patience decay plus the
mood-threshold checks. -/
def Customer.updateWaiting (c : Customer) (deltaTime difficulty : ℚ) : Customer :=
  let decayRate := PATIENCE_DECAY_RATE * difficulty * (deltaTime / 1000)
  let c := { c with patience := max 0 (c.patience - decayRate) }
  let patiencePercent := c.patience / c.maxPatience * 100
  if patiencePercent ≤ 0 then c.stormOff
  else if patiencePercent < 25 ∧ c.state ≠ .angry then
    { c with state := .angry, frame := 0, animationSpeed := 100 }
  else if patiencePercent < 50 ∧ c.state = .idle then
    { c with state := .impatient, frame := 0, animationSpeed := 150 }
  else c

/-- `Customer.updateHappy(deltaTime)`. -/
def Customer.updateHappy (c : Customer) : Customer :=
  if c.frame ≥ 3 then { c with state := .walkingOut, frame := 0, isLeaving := true } else c

/-- `Customer.updateLeaving(deltaTime)`. -/
def Customer.updateLeaving (c : Customer) (deltaTime : ℚ) : Customer :=
  let speed := c.type.walkSpeed * (deltaTime / 16)
  let c :=
    if c.state = .walkingOut then
      { c with x := c.x - speed * 2, alpha := max 0 (c.alpha - 1 / 100) }
    else
      { c with x := c.x + speed * 4 }
  if c.x < CUSTOMER_EXIT_X ∨ c.x > CUSTOMER_SPAWN_X then { c with isRemovable := true } else c

/-- `Customer.update(deltaTime, difficulty)`: frame bookkeeping followed by
the state-machine dispatch (the angry-shake visual effect is presentation
and not modelled). -/
def Customer.update (c : Customer) (deltaTime difficulty : ℚ) : Customer :=
  let c := c.advanceFrame deltaTime
  match c.state with
  | .walkingIn => c.updateWalkingIn deltaTime
  | .idle | .impatient | .angry => c.updateWaiting deltaTime difficulty
  | .happy => c.updateHappy
  | .walkingOut | .stormingOff => c.updateLeaving deltaTime

/-- Iterated `Customer.update` over a sequence of frame deltas. -/
def Customer.runUpdates (c : Customer) (difficulty : ℚ) : List ℚ → Customer
  | [] => c
  | d :: ds => (c.update d difficulty).runUpdates difficulty ds

/-! ## Bottle entity (`Bottle.js`) -/

structure Bottle where
  locked : Bool
  state : BottleState
  cooldownEnd : ℚ
  fillLevel : ℚ
  frame : Nat
  frameTimer : ℚ
  animationSpeed : ℚ
  deriving DecidableEq, Repr

/-- The `Bottle` constructor (position and visual-effect fields are
presentation and not modelled). -/
def Bottle.init (locked : Bool) : Bottle :=
  { locked := locked
    state := if locked then .empty else .idle
    cooldownEnd := 0
    fillLevel := if locked then 0 else 1
    frame := 0
    frameTimer := 0
    animationSpeed := 150 }

/-- `Bottle.isOnCooldown()`, with `Date.now()` passed as `now`. -/
def Bottle.isOnCooldown (b : Bottle) (now : ℚ) : Bool :=
  now < b.cooldownEnd

/-- `Bottle.getCooldownProgress()`. -/
def Bottle.getCooldownProgress (b : Bottle) (now : ℚ) : ℚ :=
  if b.isOnCooldown now then 1 - (b.cooldownEnd - now) / BOTTLE_COOLDOWN else 1

/-- `Bottle.use()`: returns the JS boolean result together with the updated
bottle. -/
def Bottle.use (b : Bottle) (now : ℚ) : Bool × Bottle :=
  if b.locked || b.isOnCooldown now then (false, b)
  else
    (true, { b with state := .pouring, frame := 0, fillLevel := 0,
                    cooldownEnd := now + BOTTLE_COOLDOWN })

/-- The frame-timer bookkeeping at the top of `Bottle.update`. -/
def Bottle.advanceFrame (b : Bottle) (deltaTime : ℚ) : Bottle :=
  let ft := b.frameTimer + deltaTime
  if ft ≥ b.animationSpeed then { b with frameTimer := 0, frame := b.frame + 1 }
  else { b with frameTimer := ft }

/-- `Bottle.update(deltaTime)`: the state-transition block (glow and hover
interpolation are presentation and not modelled). -/
def Bottle.update (b : Bottle) (deltaTime now : ℚ) : Bottle :=
  let b := b.advanceFrame deltaTime
  if b.state = .pouring then
    let b := { b with fillLevel := max 0 (b.fillLevel - deltaTime / 300) }
    if b.fillLevel ≤ 0 then { b with state := .empty, frame := 0 } else b
  else if b.state = .empty ∧ b.isOnCooldown now then
    { b with state := .refilling, frame := 0 }
  else if b.state = .refilling then
    let b := { b with fillLevel := b.getCooldownProgress now }
    if ¬ b.isOnCooldown now then { b with state := .idle, fillLevel := 1, frame := 0 }
    else b
  else b

/-! ## Incoming messages and the pending queue (`Game.js`) -/

/-- A record returned by the message-source collaborator
(`fetchIncomingMessages`).  Fields not read by the game core are omitted. -/
structure IncomingMsg where
  mid : String
  phone : String
  senderName : Option String
  text : Option String
  deriving DecidableEq, Repr

/-- `msg.sender_name || msg.phone` (empty string is falsy). -/
def IncomingMsg.displayName (m : IncomingMsg) : String :=
  strOr m.senderName m.phone

/-- `msg.message?.substring(0, 50) || 'New message'`. -/
def IncomingMsg.preview (m : IncomingMsg) : String :=
  match m.text with
  | some s => if s.take 50 = "" then "New message" else s.take 50
  | none => "New message"

/-- An entry of `Game.pendingRealMessages`. -/
structure PendingMsg where
  name : String
  message : String
  phone : String
  isReal : Bool
  messageId : String
  deriving DecidableEq, Repr

/-! ## Game engine state (`Game.js`) -/

structure Game where
  state : RoundState
  score : ℤ
  customersServed : Nat
  customersLost : Nat
  comboCount : Nat
  maxCombo : Nat
  difficulty : ℚ
  lastSpawnTime : ℚ
  comboTimer : ℚ
  lastApiPoll : ℚ
  demoMode : Bool
  customers : List Customer
  bottles : List Bottle
  customerSlots : List (Option Customer)
  selectedBottleIndex : Option Nat
  pendingRealMessages : List PendingMsg
  deriving DecidableEq, Repr

/-- The combo-timer block at the top of `Game.update` (lines 154-160). -/
def Game.tickCombo (g : Game) (deltaTime : ℚ) : Game :=
  if g.comboCount > 0 then
    let t := g.comboTimer - deltaTime
    if t ≤ 0 then { g with comboTimer := t, comboCount := 0 }
    else { g with comboTimer := t }
  else g

/-- The API-poll timer bookkeeping in `Game.update` (lines 162-167); the
poll itself is asynchronous and its result is applied separately by
`Game.enqueueIncoming`. -/
def Game.tickApiPoll (g : Game) (deltaTime : ℚ) : Game :=
  let g := { g with lastApiPoll := g.lastApiPoll + deltaTime }
  if ¬ g.demoMode ∧ g.lastApiPoll ≥ API_POLL_INTERVAL then { g with lastApiPoll := 0 }
  else g

/-- One iteration of the enqueue loop of `Game.pollIncomingMessages`: the
record is appended to the pending queue only if no active customer and no
already-queued record shares its phone. -/
def enqueueStep (g : Game) (msg : IncomingMsg) : Game :=
  let alreadyExists :=
    g.customers.any (fun c => c.phone = msg.phone) ||
    g.pendingRealMessages.any (fun m => m.phone = msg.phone)
  if alreadyExists then g
  else
    { g with pendingRealMessages := g.pendingRealMessages ++
        [{ name := msg.displayName, message := msg.preview, phone := msg.phone,
           isReal := true, messageId := msg.mid }] }

/-- The enqueue loop of `Game.pollIncomingMessages` applied to a batch of
fetched records (the early return when `demoMode` is set mirrors the guard
at the top of the method). -/
def Game.enqueueIncoming (g : Game) (msgs : List IncomingMsg) : Game :=
  if g.demoMode then g
  else msgs.foldl enqueueStep g

/-- `customerSlots.findIndex(slot => slot === null)`, returning `none` when
every slot is occupied. -/
def findNullIdx : List (Option Customer) → Option Nat
  | [] => none
  | none :: _ => some 0
  | some _ :: rest => (findNullIdx rest).map (· + 1)

/-- `Game.spawnCustomer()`.  `nextId` is the id-counter value; `ty`,
`demoName` and `demoMessage` package the constructor randomness. -/
def Game.spawnCustomer (g : Game) (nextId : Nat) (ty : CustomerType)
    (demoName demoMessage : String) : Game :=
  match findNullIdx g.customerSlots with
  | none => g
  | some i =>
    let (customer, pending) :=
      match g.pendingRealMessages with
      | msgData :: rest =>
        (Customer.init nextId ty demoName demoMessage
          (some msgData.name) (some msgData.message) (some msgData.phone) true, rest)
      | [] =>
        (Customer.init nextId ty demoName demoMessage none none none false,
         g.pendingRealMessages)
    let customer := customer.assignSlot i
    { g with pendingRealMessages := pending,
             customerSlots := g.customerSlots.set i (some customer),
             customers := g.customers ++ [customer] }

/-- The spawn-timer block of `Game.update` (lines 169-179). -/
def Game.tickSpawn (g : Game) (deltaTime : ℚ) (nextId : Nat) (ty : CustomerType)
    (demoName demoMessage : String) : Game :=
  let g := { g with lastSpawnTime := g.lastSpawnTime + deltaTime }
  let spawnInterval := max MIN_SPAWN_INTERVAL (BASE_SPAWN_INTERVAL / g.difficulty)
  if g.lastSpawnTime ≥ spawnInterval then
    ({ g with lastSpawnTime := 0 }).spawnCustomer nextId ty demoName demoMessage
  else g

/-- The per-customer update pass of `Game.update` (lines 181-190). -/
def Game.updateCustomers (g : Game) (deltaTime : ℚ) : Game :=
  { g with customers := g.customers.map (fun c => c.update deltaTime g.difficulty) }

/-- Whether a customer is observed as newly lost by the loss-accounting
pass. -/
def newlyLost (c : Customer) : Prop :=
  c.state = .stormingOff ∧ c.countedAsLost = false

instance (c : Customer) : Decidable (newlyLost c) := by
  unfold newlyLost; infer_instance

/-- One step of the loss-accounting `forEach` of `Game.update`
(lines 192-205): the accumulator carries the game counters and the
customers processed so far. -/
def lostAcc (p : Game × List Customer) (c : Customer) : Game × List Customer :=
  if newlyLost c then
    let c := { c with countedAsLost := true }
    let g := { p.1 with customersLost := p.1.customersLost + 1, comboCount := 0 }
    let g := if g.customersLost ≥ MAX_LOST then { g with state := .gameover } else g
    (g, p.2 ++ [c])
  else (p.1, p.2 ++ [c])

/-- The loss-accounting pass of `Game.update` (lines 192-205), including the
`gameOver()` transition when `customersLost` reaches `MAX_LOST`. -/
def Game.processLost (g : Game) : Game :=
  let r := g.customers.foldl lostAcc (g, [])
  { r.1 with customers := r.2 }

/-- Clearing the slot of one removable customer (part of lines 207-216). -/
def clearSlotOf (slots : List (Option Customer)) (c : Customer) : List (Option Customer) :=
  if c.isRemovable then
    match c.slotIndex with
    | some i => slots.set i none
    | none => slots
  else slots

/-- The removal filter of `Game.update` (lines 207-216): removable customers
are dropped from the roster and their slots are freed. -/
def Game.removeFinished (g : Game) : Game :=
  { g with
    customerSlots := g.customers.foldl clearSlotOf g.customerSlots,
    customers := g.customers.filter (fun c => ¬ c.isRemovable) }

/-- The bottle update pass of `Game.update` (lines 218-227). -/
def Game.updateBottles (g : Game) (deltaTime now : ℚ) : Game :=
  { g with bottles := g.bottles.map (fun b => b.update deltaTime now) }

/-- The difficulty ramp of `Game.update` (lines 232-235). -/
def Game.updateDifficulty (g : Game) : Game :=
  if g.customersServed > 0 ∧ g.customersServed % 10 = 0 then
    { g with difficulty := min 3 (1 + (g.customersServed : ℚ) / 20) }
  else g

/-- `Game.update(deltaTime)`: gated on the playing state, then the tick
passes in source order.  `now` is the wall clock read by the bottle pass;
the spawn randomness and id counter are explicit parameters. -/
def Game.update (g : Game) (deltaTime now : ℚ) (nextId : Nat) (ty : CustomerType)
    (demoName demoMessage : String) : Game :=
  if g.state ≠ .playing then g
  else
    (((((((g.tickCombo deltaTime).tickApiPoll deltaTime).tickSpawn
        deltaTime nextId ty demoName demoMessage).updateCustomers
        deltaTime).processLost).removeFinished).updateBottles deltaTime now).updateDifficulty

/-- `Game.serveCustomer(customer)` with the customer given by its index in
the roster; the outbound message delivery is an external side effect with
no bearing on the state transition. -/
def Game.serveCustomer (g : Game) (ci : Nat) (now : ℚ) : Game :=
  match g.selectedBottleIndex with
  | none => g
  | some bi =>
    match g.bottles.get? bi, g.customers.get? ci with
    | some bottle, some customer =>
      if bottle.locked then g
      else if bottle.isOnCooldown now then g
      else if (customer.serve).1 = false then g
      else
        let customer := (customer.serve).2
        let bottle := (bottle.use now).2
        let patienceBonus : ℤ := Rat.floor (customer.getPatiencePercent * PATIENCE_BONUS_MULTIPLIER)
        let comboBonus : ℤ := (g.comboCount : ℤ) * COMBO_BONUS
        let points := BASE_SCORE + patienceBonus + comboBonus
        { g with
          customers := g.customers.set ci customer,
          bottles := g.bottles.set bi bottle,
          score := g.score + points,
          customersServed := g.customersServed + 1,
          comboCount := g.comboCount + 1,
          maxCombo := max g.maxCombo (g.comboCount + 1),
          comboTimer := COMBO_TIMEOUT }
    | _, _ => g

/-- The bottle-selection branch of `Game.handleClick`. -/
def Game.selectBottle (g : Game) (i : Nat) : Game :=
  match g.bottles.get? i with
  | some b => if b.locked then g else { g with selectedBottleIndex := some i }
  | none => g

/-- `Game.startGame()` (the bottle reset mirrors lines 590-594). -/
def Game.startGame (g : Game) : Game :=
  { g with
    state := .playing
    score := 0
    customersServed := 0
    customersLost := 0
    comboCount := 0
    maxCombo := 0
    difficulty := 1
    customers := []
    customerSlots := List.replicate MAX_CUSTOMERS none
    selectedBottleIndex := none
    lastSpawnTime := 0
    lastApiPoll := 0
    pendingRealMessages := []
    bottles := g.bottles.map (fun b =>
      { b with cooldownEnd := 0,
               state := if b.locked then .empty else .idle,
               fillLevel := if b.locked then 0 else 1 }) }

/-- `Game.pause()`. -/
def Game.pause (g : Game) : Game :=
  if g.state = .playing then { g with state := .paused } else g

/-- `Game.resume()`. -/
def Game.resume (g : Game) : Game :=
  if g.state = .paused then { g with state := .playing } else g

/-- `Game.gameOver()`. -/
def Game.gameOverStep (g : Game) : Game :=
  { g with state := .gameover }

/-! ## Derived predicates -/

/-- The three waiting states in which `updateWaiting` runs. -/
def isWaiting (s : CustomerState) : Prop :=
  s = CustomerState.idle ∨ s = CustomerState.impatient ∨ s = CustomerState.angry

instance (s : CustomerState) : Decidable (isWaiting s) := by
  unfold isWaiting; infer_instance

/-- Mood ordering used to express that a waiting customer never returns to
a calmer state: idle, impatient, angry, stormed-off in increasing order. -/
def moodRank : CustomerState → Nat
  | CustomerState.idle => 0
  | CustomerState.impatient => 1
  | CustomerState.angry => 2
  | CustomerState.stormingOff => 3
  | _ => 0

/-- Number of occupied entries in the slots array. -/
def occupiedCount (slots : List (Option Customer)) : Nat :=
  slots.countP (fun s => s.isSome)

/-- Slot-capacity coupling invariant: the slots array keeps its fixed size
`MAX_CUSTOMERS` and every active customer is backed by an occupied slot. -/
def Game.slotsInv (g : Game) : Prop :=
  g.customerSlots.length = MAX_CUSTOMERS ∧
  g.customers.length ≤ occupiedCount g.customerSlots

/-- The correlation keys of all real entities: phones of real active
customers followed by phones of the pending queue. -/
def Game.realKeys (g : Game) : List String :=
  (g.customers.filter (fun c => c.isReal)).map (fun c => c.phone) ++
  g.pendingRealMessages.map (fun m => m.phone)

/-- Dedup invariant: every real-customer correlation key is carried by at
most one entity, whether an active customer or a pending-queue record. -/
def Game.dedupInv (g : Game) : Prop := g.realKeys.Nodup

/-- Combo-bookkeeping invariant: the running combo never exceeds the
recorded maximum. -/
def Game.comboInv (g : Game) : Prop := g.comboCount ≤ g.maxCombo

/-! ## Sample data for the concrete witnesses -/

def officeWorker : CustomerType := { tid := "office_worker", patience := 100, walkSpeed := 2 }

def c3Bottle : Bottle := Bottle.init false

def c3Customer (n : Nat) : Customer :=
  { Customer.init (10 + n) officeWorker "Cy" "yo" none none none false with
      state := CustomerState.idle, patience := 80 }

def c3Game0 : Game :=
  { state := .playing, score := 0, customersServed := 0, customersLost := 0,
    comboCount := 0, maxCombo := 0, difficulty := 1, lastSpawnTime := 0,
    comboTimer := 0, lastApiPoll := 0, demoMode := true,
    customers := [c3Customer 0, c3Customer 1, c3Customer 2],
    bottles := [c3Bottle, c3Bottle, c3Bottle],
    customerSlots :=
      [some (c3Customer 0), some (c3Customer 1), some (c3Customer 2), none, none, none],
    selectedBottleIndex := some 0, pendingRealMessages := [] }

def c3Game1 : Game := c3Game0.serveCustomer 0 0

def c3Game2 : Game := ((c3Game1.tickCombo 1000).selectBottle 1).serveCustomer 1 1000

def c3Game3 : Game := ((c3Game2.tickCombo 1000).selectBottle 2).serveCustomer 2 2000

def c4Customer : Customer := Customer.init 4 officeWorker "Bo" "hello there" none none none false

def c4FullGame : Game :=
  { state := .playing, score := 0, customersServed := 0, customersLost := 0,
    comboCount := 0, maxCombo := 0, difficulty := 1, lastSpawnTime := 0,
    comboTimer := 0, lastApiPoll := 0, demoMode := true,
    customers := [c4Customer, c4Customer, c4Customer, c4Customer, c4Customer, c4Customer],
    bottles := [],
    customerSlots := [some c4Customer, some c4Customer, some c4Customer,
      some c4Customer, some c4Customer, some c4Customer],
    selectedBottleIndex := none,
    pendingRealMessages :=
      [{ name := "R", message := "m", phone := "111", isReal := true, messageId := "id1" }] }

def c5Msg : IncomingMsg :=
  { mid := "m1", phone := "9721111", senderName := some "Roy", text := some "shalom" }

def c5Game : Game :=
  { state := .playing, score := 0, customersServed := 0, customersLost := 0,
    comboCount := 0, maxCombo := 0, difficulty := 1, lastSpawnTime := 0,
    comboTimer := 0, lastApiPoll := 0, demoMode := false,
    customers := [], bottles := [],
    customerSlots := [none, none, none, none, none, none],
    selectedBottleIndex := none, pendingRealMessages := [] }

def c10Customer : Customer :=
  { Customer.init 9 officeWorker "Lee" "sup" none none none false with
      state := CustomerState.idle }

def c10Game : Game :=
  { state := .playing, score := 40, customersServed := 1, customersLost := 0,
    comboCount := 1, maxCombo := 1, difficulty := 1, lastSpawnTime := 0,
    comboTimer := 500, lastApiPoll := 0, demoMode := true,
    customers := [c10Customer], bottles := [Bottle.init false],
    customerSlots := [some c10Customer, none, none, none, none, none],
    selectedBottleIndex := some 0, pendingRealMessages := [] }

def c6Customer : Customer :=
  { Customer.init 3 officeWorker "Max" "help" none none none false with
      state := CustomerState.stormingOff, isLeaving := true }

def c6Game : Game :=
  { state := .playing, score := 500, customersServed := 7, customersLost := 4,
    comboCount := 2, maxCombo := 3, difficulty := 1, lastSpawnTime := 0,
    comboTimer := 1000, lastApiPoll := 0, demoMode := true,
    customers := [c6Customer], bottles := [], customerSlots := [],
    selectedBottleIndex := none, pendingRealMessages := [] }

def c1Customer : Customer := Customer.init 1 officeWorker "Neo" "hello" none none none false

def c9Bottle : Bottle :=
  { locked := false, state := .empty, cooldownEnd := 3000, fillLevel := 0,
    frame := 0, frameTimer := 0, animationSpeed := 150 }

def c7Bottle : Bottle := Bottle.init false

def c7Poured : Bottle :=
  { locked := false, state := .pouring, cooldownEnd := 3000, fillLevel := 0,
    frame := 0, frameTimer := 0, animationSpeed := 150 }

def c7Depleted : Bottle :=
  { locked := false, state := .empty, cooldownEnd := 3000, fillLevel := 0,
    frame := 0, frameTimer := 16, animationSpeed := 150 }

def c7EmptyPending : Bottle :=
  { locked := false, state := .empty, cooldownEnd := 3000, fillLevel := 0,
    frame := 0, frameTimer := 0, animationSpeed := 150 }

def c8Bottle : Bottle := Bottle.init false

def c8FreshBottle : Bottle := Bottle.init false

/-! ## Basic field-preservation lemmas -/

theorem Bottle.advanceFrame_state_eq (b : Bottle) (d : ℚ) : (b.advanceFrame d).state = b.state := by
  simp only [Bottle.advanceFrame]; split <;> rfl

theorem Bottle.advanceFrame_cooldownEnd (b : Bottle) (d : ℚ) :
    (b.advanceFrame d).cooldownEnd = b.cooldownEnd := by
  simp only [Bottle.advanceFrame]; split <;> rfl

theorem Bottle.advanceFrame_fillLevel (b : Bottle) (d : ℚ) :
    (b.advanceFrame d).fillLevel = b.fillLevel := by
  simp only [Bottle.advanceFrame]; split <;> rfl

theorem Bottle.advanceFrame_locked (b : Bottle) (d : ℚ) :
    (b.advanceFrame d).locked = b.locked := by
  simp only [Bottle.advanceFrame]; split <;> rfl

theorem Customer.advanceFrame_state (c : Customer) (d : ℚ) :
    (c.advanceFrame d).state = c.state := by
  simp only [Customer.advanceFrame]; split <;> rfl

theorem Customer.advanceFrame_patience (c : Customer) (d : ℚ) :
    (c.advanceFrame d).patience = c.patience := by
  simp only [Customer.advanceFrame]; split <;> rfl

theorem Customer.advanceFrame_maxPatience (c : Customer) (d : ℚ) :
    (c.advanceFrame d).maxPatience = c.maxPatience := by
  simp only [Customer.advanceFrame]; split <;> rfl

theorem Customer.advanceFrame_isLeaving (c : Customer) (d : ℚ) :
    (c.advanceFrame d).isLeaving = c.isLeaving := by
  simp only [Customer.advanceFrame]; split <;> rfl

theorem Customer.updateWalkingIn_patience (c : Customer) (d : ℚ) :
    (c.updateWalkingIn d).patience = c.patience := by
  simp only [Customer.updateWalkingIn]
  split
  · rfl
  · split <;> rfl

theorem Customer.updateHappy_patience (c : Customer) :
    (c.updateHappy).patience = c.patience := by
  unfold Customer.updateHappy; split <;> rfl

theorem Customer.updateLeaving_patience (c : Customer) (d : ℚ) :
    (c.updateLeaving d).patience = c.patience := by
  simp only [Customer.updateLeaving]; split_ifs <;> rfl

theorem Customer.updateLeaving_state (c : Customer) (d : ℚ) :
    (c.updateLeaving d).state = c.state := by
  simp only [Customer.updateLeaving]; split_ifs <;> rfl

theorem Customer.stormOff_patience (c : Customer) :
    (c.stormOff).patience = c.patience := by
  unfold Customer.stormOff; split <;> rfl

theorem Customer.updateWaiting_patience (c : Customer) (d D : ℚ) :
    (c.updateWaiting d D).patience =
      max 0 (c.patience - PATIENCE_DECAY_RATE * D * (d / 1000)) := by
  simp only [Customer.updateWaiting]
  split_ifs <;> simp [Customer.stormOff_patience]

theorem Customer.stormOff_maxPatience (c : Customer) :
    (c.stormOff).maxPatience = c.maxPatience := by
  unfold Customer.stormOff; split <;> rfl

theorem Customer.updateWaiting_maxPatience (c : Customer) (d D : ℚ) :
    (c.updateWaiting d D).maxPatience = c.maxPatience := by
  simp only [Customer.updateWaiting]
  split_ifs <;> simp [Customer.stormOff_maxPatience]

/-- In a waiting state, `Customer.update` is exactly `updateWaiting` after
the frame bookkeeping. -/
theorem Customer.update_eq_updateWaiting (c : Customer) (d D : ℚ) (hw : isWaiting c.state) :
    c.update d D = (c.advanceFrame d).updateWaiting d D := by
  have hs := Customer.advanceFrame_state c d
  simp only [Customer.update]
  split <;> rename_i heq <;> rw [hs] at heq <;>
    first
      | rfl
      | (exfalso; rcases hw with h | h | h <;> rw [h] at heq <;> exact absurd heq (by simp))

/-- In the storming-off state, `Customer.update` is exactly `updateLeaving`
after the frame bookkeeping. -/
theorem Customer.update_eq_updateLeaving (c : Customer) (d D : ℚ)
    (hs0 : c.state = CustomerState.stormingOff) :
    c.update d D = (c.advanceFrame d).updateLeaving d := by
  have hs := Customer.advanceFrame_state c d
  simp only [Customer.update]
  split <;> rename_i heq <;> rw [hs, hs0] at heq <;>
    first
      | rfl
      | (exfalso; exact absurd heq (by simp))

/-- The mood-threshold behavior of one `updateWaiting` step, stated on the
post-decay patience percent. -/
theorem Customer.updateWaiting_thresholds (c : Customer) (d D : ℚ)
    (hleave : c.isLeaving = false) :
    ((c.updateWaiting d D).patience / c.maxPatience * 100 ≤ 0 →
        (c.updateWaiting d D).state = CustomerState.stormingOff ∧
        (c.updateWaiting d D).isLeaving = true) ∧
    (0 < (c.updateWaiting d D).patience / c.maxPatience * 100 →
        (c.updateWaiting d D).patience / c.maxPatience * 100 < 25 →
        c.state ≠ CustomerState.angry →
        (c.updateWaiting d D).state = CustomerState.angry) ∧
    (25 ≤ (c.updateWaiting d D).patience / c.maxPatience * 100 →
        (c.updateWaiting d D).patience / c.maxPatience * 100 < 50 →
        c.state = CustomerState.idle →
        (c.updateWaiting d D).state = CustomerState.impatient) := by
  simp only [Customer.updateWaiting]
  split_ifs with h1 h2 h3
  · refine ⟨fun _ => ?_, fun hgt _ _ => ?_, fun hge _ _ => ?_⟩
    · simp [Customer.stormOff, hleave]
    · rw [Customer.stormOff_patience] at hgt; exact absurd h1 (not_le.mpr hgt)
    · rw [Customer.stormOff_patience] at hge; exfalso; linarith
  · exact ⟨fun habs => absurd habs h1, fun _ _ _ => rfl,
      fun hge hlt hid => absurd h2.1 (not_lt.mpr hge)⟩
  · exact ⟨fun habs => absurd habs h1, fun hgt hlt hne => absurd ⟨hlt, hne⟩ h2,
      fun _ _ _ => rfl⟩
  · exact ⟨fun habs => absurd habs h1, fun hgt hlt hne => absurd ⟨hlt, hne⟩ h2,
      fun hge hlt hid => absurd ⟨hlt, hid⟩ h3⟩

def c2Customer : Customer :=
  { Customer.init 2 officeWorker "Ann" "hey" none none none false with
      state := CustomerState.idle }

/-- One `updateWaiting` step never moves the mood to a calmer state, and
keeps the state within the waiting-or-stormed-off set. -/
theorem Customer.updateWaiting_mood (c : Customer) (d D : ℚ) (hw : isWaiting c.state) :
    (isWaiting (c.updateWaiting d D).state ∨
      (c.updateWaiting d D).state = CustomerState.stormingOff) ∧
    moodRank c.state ≤ moodRank (c.updateWaiting d D).state := by
  simp only [Customer.updateWaiting, Customer.stormOff]
  split_ifs with h1 h2 h3 h4 <;>
    rcases hw with h | h | h <;> simp_all [isWaiting, moodRank]

/-- `Customer.update` decreases patience by the decay amount (floored at 0)
in any waiting state, and never increases patience in any state. -/
theorem Customer.update_patience_le (c : Customer) (d D : ℚ) (hd : 0 ≤ d) (hD : 0 ≤ D)
    (hp : 0 ≤ c.patience) :
    (c.update d D).patience ≤ c.patience ∧ 0 ≤ (c.update d D).patience := by
  have hdecay : 0 ≤ PATIENCE_DECAY_RATE * D * (d / 1000) := by
    have h1 : (0 : ℚ) ≤ d / 1000 := by positivity
    have h2 : (0 : ℚ) ≤ PATIENCE_DECAY_RATE := by norm_num [PATIENCE_DECAY_RATE]
    exact mul_nonneg (mul_nonneg h2 hD) h1
  have hfa := Customer.advanceFrame_patience c d
  simp only [Customer.update]
  split <;>
    simp only [Customer.updateWalkingIn_patience, Customer.updateWaiting_patience,
      Customer.updateHappy_patience, Customer.updateLeaving_patience, hfa] <;>
    first
      | exact ⟨le_rfl, hp⟩
      | exact ⟨max_le hp (by linarith), le_max_left 0 _⟩

/-- `Customer.update` never moves the mood to a calmer state, starting from
any waiting or stormed-off state. -/
theorem Customer.update_mood (c : Customer) (d D : ℚ)
    (h : isWaiting c.state ∨ c.state = CustomerState.stormingOff) :
    (isWaiting (c.update d D).state ∨ (c.update d D).state = CustomerState.stormingOff) ∧
    moodRank c.state ≤ moodRank (c.update d D).state := by
  rcases h with hw | hs
  · rw [Customer.update_eq_updateWaiting c d D hw]
    have hw2 : isWaiting (c.advanceFrame d).state := by
      rw [Customer.advanceFrame_state]; exact hw
    have := Customer.updateWaiting_mood (c.advanceFrame d) d D hw2
    rwa [Customer.advanceFrame_state] at this
  · rw [Customer.update_eq_updateLeaving c d D hs]
    rw [Customer.updateLeaving_state, Customer.advanceFrame_state, hs]
    exact ⟨Or.inr rfl, le_rfl⟩

/-- Over any sequence of non-negative deltas, patience is non-increasing. -/
theorem Customer.runUpdates_patience (D : ℚ) (hD : 0 ≤ D) :
    ∀ (ds : List ℚ) (c : Customer), (∀ x ∈ ds, 0 ≤ x) → 0 ≤ c.patience →
      (c.runUpdates D ds).patience ≤ c.patience ∧ 0 ≤ (c.runUpdates D ds).patience := by
  intro ds
  induction ds with
  | nil => exact fun c _ hp => ⟨le_rfl, hp⟩
  | cons d ds ih =>
    intro c hds hp
    have h1 := Customer.update_patience_le c d D (hds d (by simp)) hD hp
    have h2 := ih (c.update d D) (fun x hx => hds x (by simp [hx])) h1.2
    exact ⟨le_trans h2.1 h1.1, h2.2⟩

/-- Over any sequence of deltas, the mood never returns to a calmer state. -/
theorem Customer.runUpdates_mood (D : ℚ) :
    ∀ (ds : List ℚ) (c : Customer),
      (isWaiting c.state ∨ c.state = CustomerState.stormingOff) →
      (isWaiting (c.runUpdates D ds).state ∨
        (c.runUpdates D ds).state = CustomerState.stormingOff) ∧
      moodRank c.state ≤ moodRank (c.runUpdates D ds).state := by
  intro ds
  induction ds with
  | nil => exact fun c h => ⟨h, le_rfl⟩
  | cons d ds ih =>
    intro c h
    have h1 := Customer.update_mood c d D h
    have h2 := ih (c.update d D) h1.1
    exact ⟨h2.1, le_trans h1.2 h2.2⟩

/-- C2: for a customer in a waiting state (idle, impatient or angry), one
update with elapsed delta `d` and difficulty `D` sets patience to
`max 0 (patience - 1.5 * D * (d / 1000))`; evaluating the decayed patience
as a percent of `maxPatience`, at or below 0 percent the customer storms
off (storming-off state, `isLeaving`), below 25 percent and not already
angry it becomes angry, and between 25 and 50 percent while idle it becomes
impatient; patience never increases, and over any sequence of positive
deltas patience is non-increasing and the mood never returns to a calmer
state without a `serve()`. -/
theorem C2_patience_decay_and_moods (c : Customer) (d D : ℚ)
    (hw : isWaiting c.state) (hleave : c.isLeaving = false)
    (hd : 0 ≤ d) (hD : 0 ≤ D) (hp : 0 ≤ c.patience) :
    ((c.update d D).patience =
        max 0 (c.patience - PATIENCE_DECAY_RATE * D * (d / 1000))) ∧
    (c.update d D).patience ≤ c.patience ∧
    ((c.update d D).patience / c.maxPatience * 100 ≤ 0 →
        (c.update d D).state = CustomerState.stormingOff ∧
        (c.update d D).isLeaving = true) ∧
    (0 < (c.update d D).patience / c.maxPatience * 100 →
        (c.update d D).patience / c.maxPatience * 100 < 25 →
        c.state ≠ CustomerState.angry →
        (c.update d D).state = CustomerState.angry) ∧
    (25 ≤ (c.update d D).patience / c.maxPatience * 100 →
        (c.update d D).patience / c.maxPatience * 100 < 50 →
        c.state = CustomerState.idle →
        (c.update d D).state = CustomerState.impatient) ∧
    moodRank c.state ≤ moodRank (c.update d D).state ∧
    (∀ ds : List ℚ, (∀ x ∈ ds, 0 < x) →
        (c.runUpdates D ds).patience ≤ c.patience ∧
        moodRank c.state ≤ moodRank (c.runUpdates D ds).state) := by
  have hfa := Customer.advanceFrame_patience c d
  have hfm := Customer.advanceFrame_maxPatience c d
  have hfl := Customer.advanceFrame_isLeaving c d
  have hfs := Customer.advanceFrame_state c d
  have heq := Customer.update_eq_updateWaiting c d D hw
  have hth := Customer.updateWaiting_thresholds (c.advanceFrame d) d D
    (by rw [hfl]; exact hleave)
  rw [hfm, hfs] at hth
  have hpat : (c.update d D).patience =
      max 0 (c.patience - PATIENCE_DECAY_RATE * D * (d / 1000)) := by
    rw [heq, Customer.updateWaiting_patience, hfa]
  refine ⟨hpat, (Customer.update_patience_le c d D hd hD hp).1, ?_, ?_, ?_,
    (Customer.update_mood c d D (Or.inl hw)).2, ?_⟩
  · rw [heq]; exact hth.1
  · rw [heq]; exact hth.2.1
  · rw [heq]; exact hth.2.2
  · intro ds hds
    exact ⟨(Customer.runUpdates_patience D hD ds c
        (fun x hx => le_of_lt (hds x hx)) hp).1,
      (Customer.runUpdates_mood D ds c (Or.inl hw)).2⟩

theorem C2_witness :
    (c2Customer.update 20000 1).patience =
      max 0 (c2Customer.patience - PATIENCE_DECAY_RATE * 1 * (20000 / 1000)) ∧
    (c2Customer.update 20000 1).patience ≤ c2Customer.patience ∧
    moodRank c2Customer.state ≤ moodRank (c2Customer.update 20000 1).state := by
  have h := C2_patience_decay_and_moods c2Customer 20000 1 (Or.inl rfl) rfl
    (by norm_num) (by norm_num)
    (by norm_num [c2Customer, Customer.init, officeWorker])
  exact ⟨h.1, h.2.1, h.2.2.2.2.2.1⟩

/-! ## C1: serve guard and idempotence -/

/-- C1: `serve()` succeeds exactly when the customer is neither already
served nor leaving; a failing call returns `false` and changes no field; a
successful call sets `isServed` and moves the state to happy; and after any
call, a second `serve()` is a no-op returning `false`, so two consecutive
calls change state only once. -/
theorem C1_serve_guard_and_idempotence (c : Customer) :
    ((c.serve).1 = true ↔ (c.isServed = false ∧ c.isLeaving = false)) ∧
    ((c.serve).1 = false → (c.serve).2 = c) ∧
    ((c.serve).1 = true →
      (c.serve).2.isServed = true ∧ (c.serve).2.state = CustomerState.happy) ∧
    ((c.serve).2.serve = (false, (c.serve).2)) := by
  unfold Customer.serve
  cases hs : c.isServed <;> cases hl : c.isLeaving <;> simp [hs, hl]

theorem C1_witness :
    (c1Customer.serve).1 = true ∧
    (c1Customer.serve).2.serve = (false, (c1Customer.serve).2) := by
  refine ⟨?_, (C1_serve_guard_and_idempotence c1Customer).2.2.2⟩
  exact (C1_serve_guard_and_idempotence c1Customer).1.mpr (by decide)

/-! ## C9: `use()` admission depends only on the cooldown deadline -/

/-- C9: for an unlocked bottle, `use()` succeeds exactly when the current
time is at or past `cooldownEnd`; the admission result is independent of the
`state` field, and a successful use performs the normal use effects
(pouring state, fresh cooldown deadline). -/
theorem C9_use_depends_only_on_cooldown (b : Bottle) (now : ℚ) (h : b.locked = false) :
    ((b.use now).1 = true ↔ b.cooldownEnd ≤ now) ∧
    (∀ s : BottleState, (({ b with state := s }).use now).1 = (b.use now).1) ∧
    ((b.use now).1 = true →
      (b.use now).2.state = BottleState.pouring ∧
      (b.use now).2.cooldownEnd = now + BOTTLE_COOLDOWN ∧
      (b.use now).2.fillLevel = 0) := by
  rcases lt_or_le now b.cooldownEnd with hlt | hle
  · have : ¬ (b.cooldownEnd ≤ now) := not_le.mpr hlt
    simp [Bottle.use, Bottle.isOnCooldown, h, hlt, this]
  · have : ¬ (now < b.cooldownEnd) := not_lt.mpr hle
    simp [Bottle.use, Bottle.isOnCooldown, h, this, hle]

theorem C9_witness :
    (c9Bottle.use 5000).1 = true ∧ (c9Bottle.use 5000).2.state = BottleState.pouring := by
  have h := C9_use_depends_only_on_cooldown c9Bottle 5000 rfl
  have hu : (c9Bottle.use 5000).1 = true := h.1.mpr (by norm_num [c9Bottle])
  exact ⟨hu, (h.2.2 hu).1⟩

/-! ## C7: the depleted to replenishing transition -/

/-- C7 counterexample: a bottle used at time 0 (cooldown deadline 3000) is
depleted after one update and then enters replenishing at time 32 — while
the cooldown is still pending — contradicting the claim that it stays
depleted until the deadline has passed. -/
theorem C7_counterexample :
    ((c7Bottle.use 0).1 = true) ∧
    (((c7Bottle.use 0).2.update 16 16).state = BottleState.empty) ∧
    ((32 : ℚ) < ((c7Bottle.use 0).2.update 16 16).cooldownEnd) ∧
    ((((c7Bottle.use 0).2.update 16 16).update 16 32).state = BottleState.refilling) := by
  have h1 : c7Bottle.use 0 = (true, c7Poured) := by
    norm_num [c7Bottle, c7Poured, Bottle.init, Bottle.use, Bottle.isOnCooldown, BOTTLE_COOLDOWN]
  have h2 : c7Poured.update 16 16 = c7Depleted := by
    norm_num [c7Poured, c7Depleted, Bottle.update, Bottle.advanceFrame, Bottle.isOnCooldown,
      Bottle.getCooldownProgress, max_def]
  have h3 : (c7Depleted.update 16 32).state = BottleState.refilling := by
    norm_num [c7Depleted, Bottle.update, Bottle.advanceFrame, Bottle.isOnCooldown,
      Bottle.getCooldownProgress]
    decide
  rw [h1]
  exact ⟨rfl, by rw [h2]; rfl, by rw [h2]; norm_num [c7Depleted], by rw [h2]; exact h3⟩

/-- C7 amended: a depleted bottle transitions to replenishing on the first
update tick at which the cooldown is still pending; once the cooldown
deadline has passed, a depleted bottle stays depleted (it becomes usable
again only through `use()` itself). -/
theorem C7_amended_empty_transitions (b : Bottle) (d now : ℚ)
    (h : b.state = BottleState.empty) :
    (now < b.cooldownEnd → (b.update d now).state = BottleState.refilling) ∧
    (b.cooldownEnd ≤ now → (b.update d now).state = BottleState.empty) := by
  have hs := Bottle.advanceFrame_state_eq b d
  have hc := Bottle.advanceFrame_cooldownEnd b d
  constructor
  · intro hlt
    simp [Bottle.update, hs, hc, h, Bottle.isOnCooldown, hlt]
  · intro hle
    have : ¬ (now < b.cooldownEnd) := not_lt.mpr hle
    simp [Bottle.update, hs, hc, h, Bottle.isOnCooldown, this]

theorem C7_amended_witness :
    (c7EmptyPending.update 16 1000).state = BottleState.refilling ∧
    (c7EmptyPending.update 16 5000).state = BottleState.empty :=
  ⟨(C7_amended_empty_transitions c7EmptyPending 16 1000 rfl).1 (by norm_num [c7EmptyPending]),
   (C7_amended_empty_transitions c7EmptyPending 16 5000 rfl).2 (by norm_num [c7EmptyPending])⟩

/-! ## C8: the fill level at the moment of use -/

/-- C8 counterexample: a successful `use()` at time 1000 leaves the fill
level at 0 immediately — before any update tick has run — contradicting the
claim that the fill level reaches 0 strictly after the moment of use. -/
theorem C8_counterexample :
    ((c8Bottle.use 1000).1 = true) ∧ ((c8Bottle.use 1000).2.fillLevel = 0) := by
  norm_num [c8Bottle, Bottle.init, Bottle.use, Bottle.isOnCooldown]

/-- C8 amended: a successful `use()` sets the fill level to 0 instantly at
the moment of use; the pouring-state decay term (`deltaTime / 300`, about
10 percent of the cooldown) operates on an already-zero fill, so the first
subsequent update observes fill at 0 and moves the bottle to depleted. -/
theorem C8_amended_fill_drops_instantly (b : Bottle) (now d now2 : ℚ)
    (hl : b.locked = false) (hc : b.cooldownEnd ≤ now) (hd : 0 ≤ d) :
    (b.use now).1 = true ∧
    (b.use now).2.fillLevel = 0 ∧
    ((b.use now).2.update d now2).state = BottleState.empty ∧
    ((b.use now).2.update d now2).fillLevel = 0 := by
  have hno : ¬ (now < b.cooldownEnd) := not_lt.mpr hc
  have hdiv : (0 : ℚ) ≤ d / 300 := by positivity
  have hneg : -(d / 300) ≤ (0 : ℚ) := neg_nonpos.mpr hdiv
  have huse : b.use now =
      (true, { b with state := .pouring, frame := 0, fillLevel := 0,
                      cooldownEnd := now + BOTTLE_COOLDOWN }) := by
    simp [Bottle.use, Bottle.isOnCooldown, hl, hno]
  refine ⟨by rw [huse], by rw [huse], ?_, ?_⟩ <;>
  · rw [huse]
    simp [Bottle.update, Bottle.advanceFrame_state_eq, Bottle.advanceFrame_fillLevel, hdiv,
      max_eq_left hneg]

theorem C8_amended_witness :
    (c8FreshBottle.use 1000).1 = true ∧
    (c8FreshBottle.use 1000).2.fillLevel = 0 ∧
    ((c8FreshBottle.use 1000).2.update 16 1016).state = BottleState.empty ∧
    ((c8FreshBottle.use 1000).2.update 16 1016).fillLevel = 0 :=
  C8_amended_fill_drops_instantly c8FreshBottle 1000 16 1016 rfl
    (by norm_num [c8FreshBottle, Bottle.init]) (by norm_num)

/-! ## C6: storm-off accounting and the game-over trigger -/

theorem lostAcc_skip (p : Game × List Customer) (c : Customer) (h : ¬ newlyLost c) :
    lostAcc p c = (p.1, p.2 ++ [c]) := by
  unfold lostAcc; rw [if_neg h]

theorem foldl_lostAcc_skip (cs : List Customer) (h : ∀ c ∈ cs, ¬ newlyLost c) :
    ∀ (g : Game) (acc : List Customer),
      cs.foldl lostAcc (g, acc) = (g, acc ++ cs) := by
  induction cs with
  | nil => intro g acc; simp
  | cons c cs ih =>
    intro g acc
    rw [List.foldl_cons, lostAcc_skip _ _ (h c (by simp))]
    rw [ih (fun x hx => h x (by simp [hx])) g (acc ++ [c])]
    simp

/-- C6: on the loss-accounting pass of the tick in which a customer is first
observed storming off, `customersLost` increments by exactly 1, `comboCount`
resets to 0 unconditionally, the customer is marked as counted, and if
`customersLost` has thereby reached `MAX_LOST` the round state becomes
gameover within that same pass — otherwise the round state is untouched;
the pass never changes score or maxCombo. -/
theorem C6_storm_off_accounting (g : Game) (pre post : List Customer) (c : Customer)
    (hcs : g.customers = pre ++ c :: post)
    (hc : newlyLost c)
    (hpre : ∀ x ∈ pre, ¬ newlyLost x) (hpost : ∀ x ∈ post, ¬ newlyLost x) :
    (g.processLost).customersLost = g.customersLost + 1 ∧
    (g.processLost).comboCount = 0 ∧
    (g.processLost).customers = pre ++ { c with countedAsLost := true } :: post ∧
    (g.customersLost + 1 ≥ MAX_LOST → (g.processLost).state = RoundState.gameover) ∧
    (g.customersLost + 1 < MAX_LOST → (g.processLost).state = g.state) ∧
    (g.processLost).score = g.score ∧
    (g.processLost).maxCombo = g.maxCombo := by
  have hfold : g.customers.foldl lostAcc (g, []) =
      ((if g.customersLost + 1 ≥ MAX_LOST then
          { g with customersLost := g.customersLost + 1, comboCount := 0,
                   state := RoundState.gameover }
        else { g with customersLost := g.customersLost + 1, comboCount := 0 }),
       pre ++ { c with countedAsLost := true } :: post) := by
    conv_lhs => rw [hcs]
    rw [List.foldl_append, foldl_lostAcc_skip pre hpre g [], List.foldl_cons]
    have hhit : lostAcc ((g : Game), ([] : List Customer) ++ pre) c =
        ((if g.customersLost + 1 ≥ MAX_LOST then
            { g with customersLost := g.customersLost + 1, comboCount := 0,
                     state := RoundState.gameover }
          else { g with customersLost := g.customersLost + 1, comboCount := 0 }),
         ([] ++ pre) ++ [{ c with countedAsLost := true }]) := by
      unfold lostAcc
      rw [if_pos hc]
    rw [hhit]
    by_cases hmax : g.customersLost + 1 ≥ MAX_LOST
    · rw [if_pos hmax, foldl_lostAcc_skip post hpost]
      simp
    · rw [if_neg hmax, foldl_lostAcc_skip post hpost]
      simp
  unfold Game.processLost
  rw [hfold]
  by_cases hmax : g.customersLost + 1 ≥ MAX_LOST
  · rw [if_pos hmax]
    exact ⟨rfl, rfl, rfl, fun _ => rfl, fun habs => absurd hmax (not_le.mpr habs), rfl, rfl⟩
  · rw [if_neg hmax]
    exact ⟨rfl, rfl, rfl, fun habs => absurd habs hmax, fun _ => rfl, rfl, rfl⟩

theorem C6_witness :
    (c6Game.processLost).customersLost = 5 ∧
    (c6Game.processLost).comboCount = 0 ∧
    (c6Game.processLost).state = RoundState.gameover := by
  have h := C6_storm_off_accounting c6Game [] [] c6Customer rfl ⟨rfl, rfl⟩
    (by simp) (by simp)
  exact ⟨h.1, h.2.1, h.2.2.2.1 (by norm_num [c6Game, MAX_LOST])⟩

/-! ## C3: the scoring formula and the three-serve combo scenario -/

theorem ratFloor_eq_intFloor (q : ℚ) : Rat.floor q = ⌊q⌋ := by
  rw [Rat.floor_def, Rat.floor_def']

/-- The effect of a successful `serveCustomer` on the scoring counters. -/
theorem Game.serveCustomer_effects (g : Game) (ci bi : Nat) (now : ℚ)
    (bottle : Bottle) (customer : Customer)
    (hsel : g.selectedBottleIndex = some bi)
    (hb : g.bottles.get? bi = some bottle)
    (hc : g.customers.get? ci = some customer)
    (hlock : bottle.locked = false)
    (hcool : bottle.isOnCooldown now = false)
    (hserved : customer.isServed = false) (hleave : customer.isLeaving = false) :
    (g.serveCustomer ci now).score =
      g.score + (BASE_SCORE +
        Rat.floor (customer.getPatiencePercent * PATIENCE_BONUS_MULTIPLIER) +
        (g.comboCount : ℤ) * COMBO_BONUS) ∧
    (g.serveCustomer ci now).comboCount = g.comboCount + 1 ∧
    (g.serveCustomer ci now).maxCombo = max g.maxCombo (g.comboCount + 1) ∧
    (g.serveCustomer ci now).comboTimer = COMBO_TIMEOUT ∧
    (g.serveCustomer ci now).customersServed = g.customersServed + 1 := by
  have hserve : (customer.serve).1 = true := by
    unfold Customer.serve; rw [hserved, hleave]; simp
  have hpct : (customer.serve).2.getPatiencePercent = customer.getPatiencePercent := by
    unfold Customer.serve Customer.getPatiencePercent; rw [hserved, hleave]; simp
  simp only [Game.serveCustomer, hsel, hb, hc, hlock, hcool, hserve, hpct]
  norm_num

/-- C3: the scoring formula `points = BASE_SCORE + floor(patiencePercent *
PATIENCE_BONUS_MULTIPLIER) + comboCountBefore * COMBO_BONUS`, together with
the concrete scenario: three customers at exactly 80 percent patience served
within `COMBO_TIMEOUT` of each other award 180, 205 and 230 points, leaving
`comboCount` at 1, 2, 3 and `maxCombo` at 3. -/
theorem C3_scoring_formula_and_combo_scenario :
    (∀ (g : Game) (ci bi : Nat) (now : ℚ) (bottle : Bottle) (customer : Customer),
      g.selectedBottleIndex = some bi →
      g.bottles.get? bi = some bottle →
      g.customers.get? ci = some customer →
      bottle.locked = false →
      bottle.isOnCooldown now = false →
      customer.isServed = false → customer.isLeaving = false →
      (g.serveCustomer ci now).score =
        g.score + (BASE_SCORE +
          Rat.floor (customer.getPatiencePercent * PATIENCE_BONUS_MULTIPLIER) +
          (g.comboCount : ℤ) * COMBO_BONUS) ∧
      (g.serveCustomer ci now).comboCount = g.comboCount + 1 ∧
      (g.serveCustomer ci now).maxCombo = max g.maxCombo (g.comboCount + 1)) ∧
    (c3Game1.score = 180 ∧ c3Game1.comboCount = 1 ∧
     c3Game2.score = 385 ∧ c3Game2.comboCount = 2 ∧
     c3Game3.score = 615 ∧ c3Game3.comboCount = 3 ∧ c3Game3.maxCombo = 3 ∧
     c3Game2.score - c3Game1.score = 205 ∧ c3Game3.score - c3Game2.score = 230) := by
  constructor
  · intro g ci bi now bottle customer hsel hb hc hlock hcool hserved hleave
    have h := Game.serveCustomer_effects g ci bi now bottle customer hsel hb hc hlock
      hcool hserved hleave
    exact ⟨h.1, h.2.1, h.2.2.1⟩
  · norm_num [c3Game1, c3Game2, c3Game3, c3Game0, c3Customer, c3Bottle, Customer.init,
      Bottle.init, officeWorker, Game.serveCustomer, Game.tickCombo, Game.selectBottle,
      Customer.serve, Customer.getPatiencePercent, Bottle.use, Bottle.isOnCooldown,
      ratFloor_eq_intFloor, BASE_SCORE, PATIENCE_BONUS_MULTIPLIER, COMBO_BONUS,
      COMBO_TIMEOUT, strOr]

theorem C3_witness :
    (c3Game0.serveCustomer 0 0).score =
      c3Game0.score + (BASE_SCORE +
        Rat.floor ((c3Customer 0).getPatiencePercent * PATIENCE_BONUS_MULTIPLIER) +
        (c3Game0.comboCount : ℤ) * COMBO_BONUS) ∧
    (c3Game0.serveCustomer 0 0).comboCount = c3Game0.comboCount + 1 := by
  have h := C3_scoring_formula_and_combo_scenario.1 c3Game0 0 0 0 c3Bottle (c3Customer 0)
    rfl rfl rfl rfl (by norm_num [c3Bottle, Bottle.init, Bottle.isOnCooldown]) rfl rfl
  exact ⟨h.1, h.2.1⟩

/-! ## C4: slot capacity -/

theorem findNullIdx_eq_none_iff (slots : List (Option Customer)) :
    findNullIdx slots = none ↔ ∀ s ∈ slots, s.isSome := by
  induction slots with
  | nil => simp [findNullIdx]
  | cons s rest ih =>
    cases s with
    | none => simp [findNullIdx]
    | some c => simp [findNullIdx, ih]

theorem findNullIdx_spec (slots : List (Option Customer)) (i : Nat)
    (h : findNullIdx slots = some i) :
    slots.get? i = some none ∧ ∀ j < i, ∀ x, slots.get? j = some x → x.isSome := by
  induction slots generalizing i with
  | nil => simp [findNullIdx] at h
  | cons s rest ih =>
    cases s with
    | none =>
      simp [findNullIdx] at h
      subst h
      exact ⟨rfl, fun j hj => absurd hj (Nat.not_lt_zero j)⟩
    | some c =>
      simp only [findNullIdx, Option.map_eq_some'] at h
      obtain ⟨i', hi', rfl⟩ := h
      have hrec := ih i' hi'
      refine ⟨by simpa using hrec.1, ?_⟩
      intro j hj x hx
      cases j with
      | zero =>
        simp at hx
        subst hx
        rfl
      | succ j' =>
        exact hrec.2 j' (by omega) x (by simpa using hx)

theorem occupiedCount_le_length (slots : List (Option Customer)) :
    occupiedCount slots ≤ slots.length :=
  List.countP_le_length _

theorem occupiedCount_set_some (slots : List (Option Customer)) (i : Nat) (c : Customer)
    (h : slots.get? i = some none) :
    occupiedCount (slots.set i (some c)) = occupiedCount slots + 1 := by
  induction slots generalizing i with
  | nil => simp at h
  | cons s rest ih =>
    cases i with
    | zero =>
      simp at h
      subst h
      simp [occupiedCount, List.countP_cons]
    | succ i' =>
      rw [List.get?_cons_succ] at h
      have := ih i' h
      simp only [List.set_cons_succ, occupiedCount, List.countP_cons] at this ⊢
      omega

theorem occupiedCount_le_set_none (slots : List (Option Customer)) (i : Nat) :
    occupiedCount slots ≤ occupiedCount (slots.set i none) + 1 := by
  induction slots generalizing i with
  | nil => simp [occupiedCount]
  | cons s rest ih =>
    cases i with
    | zero =>
      simp only [List.set_cons_zero, occupiedCount, List.countP_cons]
      cases s <;> simp
    | succ i' =>
      have := ih i'
      simp only [List.set_cons_succ, occupiedCount, List.countP_cons] at this ⊢
      omega

theorem length_clearSlotOf (slots : List (Option Customer)) (c : Customer) :
    (clearSlotOf slots c).length = slots.length := by
  unfold clearSlotOf
  split_ifs with h
  · cases c.slotIndex <;> simp
  · rfl

theorem occupiedCount_clearSlotOf (slots : List (Option Customer)) (c : Customer) :
    occupiedCount slots ≤
      occupiedCount (clearSlotOf slots c) + (if c.isRemovable then 1 else 0) := by
  unfold clearSlotOf
  split_ifs with h
  · cases hs : c.slotIndex with
    | none => simp
    | some i => simpa using occupiedCount_le_set_none slots i
  · simp

theorem occupiedCount_foldl_clear (cs : List Customer) :
    ∀ slots : List (Option Customer),
      occupiedCount slots ≤
        occupiedCount (cs.foldl clearSlotOf slots) +
          cs.countP (fun c => c.isRemovable) := by
  induction cs with
  | nil => simp
  | cons c cs ih =>
    intro slots
    have h1 := occupiedCount_clearSlotOf slots c
    have h2 := ih (clearSlotOf slots c)
    simp only [List.foldl_cons, List.countP_cons]
    by_cases hc : c.isRemovable <;> simp [hc] at h1 ⊢ <;> omega

theorem length_foldl_clear (cs : List Customer) :
    ∀ slots : List (Option Customer),
      (cs.foldl clearSlotOf slots).length = slots.length := by
  induction cs with
  | nil => intro slots; rfl
  | cons c cs ih =>
    intro slots
    rw [List.foldl_cons, ih, length_clearSlotOf]

theorem length_filter_removable (cs : List Customer) :
    (cs.filter (fun c => ¬ c.isRemovable)).length +
      cs.countP (fun c => c.isRemovable) = cs.length := by
  induction cs with
  | nil => rfl
  | cons c cs ih =>
    by_cases hc : c.isRemovable <;>
      simp [List.filter_cons, List.countP_cons, hc] at ih ⊢ <;> omega

theorem foldl_lostAcc_fields (cs : List Customer) :
    ∀ p : Game × List Customer,
      (cs.foldl lostAcc p).1.customerSlots = p.1.customerSlots ∧
      (cs.foldl lostAcc p).1.score = p.1.score ∧
      (cs.foldl lostAcc p).1.maxCombo = p.1.maxCombo ∧
      (cs.foldl lostAcc p).1.comboCount ≤ p.1.comboCount ∧
      (cs.foldl lostAcc p).1.pendingRealMessages = p.1.pendingRealMessages ∧
      (cs.foldl lostAcc p).1.bottles = p.1.bottles ∧
      (cs.foldl lostAcc p).2.length = p.2.length + cs.length := by
  induction cs with
  | nil => intro p; simp
  | cons c cs ih =>
    intro p
    have hstep : (lostAcc p c).1.customerSlots = p.1.customerSlots ∧
        (lostAcc p c).1.score = p.1.score ∧
        (lostAcc p c).1.maxCombo = p.1.maxCombo ∧
        (lostAcc p c).1.comboCount ≤ p.1.comboCount ∧
        (lostAcc p c).1.pendingRealMessages = p.1.pendingRealMessages ∧
        (lostAcc p c).1.bottles = p.1.bottles ∧
        (lostAcc p c).2.length = p.2.length + 1 := by
      unfold lostAcc
      split_ifs with h1
      · dsimp only
        split_ifs with h2 <;> simp
      · simp
    have hr := ih (lostAcc p c)
    rw [List.foldl_cons]
    refine ⟨?_, ?_, ?_, ?_, ?_, ?_, ?_⟩
    · rw [hr.1, hstep.1]
    · rw [hr.2.1, hstep.2.1]
    · rw [hr.2.2.1, hstep.2.2.1]
    · exact le_trans hr.2.2.2.1 hstep.2.2.2.1
    · rw [hr.2.2.2.2.1, hstep.2.2.2.2.1]
    · rw [hr.2.2.2.2.2.1, hstep.2.2.2.2.2.1]
    · rw [hr.2.2.2.2.2.2, hstep.2.2.2.2.2.2, List.length_cons]
      omega

theorem Game.processLost_fields (g : Game) :
    (g.processLost).customerSlots = g.customerSlots ∧
    (g.processLost).customers.length = g.customers.length ∧
    (g.processLost).score = g.score ∧
    (g.processLost).maxCombo = g.maxCombo ∧
    (g.processLost).comboCount ≤ g.comboCount ∧
    (g.processLost).pendingRealMessages = g.pendingRealMessages ∧
    (g.processLost).bottles = g.bottles := by
  unfold Game.processLost
  have h := foldl_lostAcc_fields g.customers (g, [])
  refine ⟨h.1, ?_, h.2.1, h.2.2.1, h.2.2.2.1, h.2.2.2.2.1, h.2.2.2.2.2.1⟩
  have := h.2.2.2.2.2.2
  simpa using this

theorem Game.serveCustomer_structure (g : Game) (ci : Nat) (now : ℚ) :
    (g.serveCustomer ci now).customerSlots = g.customerSlots ∧
    (g.serveCustomer ci now).customers.length = g.customers.length ∧
    (g.serveCustomer ci now).pendingRealMessages = g.pendingRealMessages := by
  unfold Game.serveCustomer
  split
  · exact ⟨rfl, rfl, rfl⟩
  · split
    · split_ifs <;> simp [List.length_set]
    · exact ⟨rfl, rfl, rfl⟩

theorem Game.spawnCustomer_full (g : Game) (nextId : Nat) (ty : CustomerType)
    (nm ms : String) (h : ∀ s ∈ g.customerSlots, s.isSome) :
    g.spawnCustomer nextId ty nm ms = g := by
  unfold Game.spawnCustomer
  rw [(findNullIdx_eq_none_iff _).mpr h]

theorem Game.spawnCustomer_first_free (g : Game) (nextId : Nat) (ty : CustomerType)
    (nm ms : String) (i : Nat) (hf : findNullIdx g.customerSlots = some i) :
    ∃ c : Customer, c.slotIndex = some i ∧
      (g.spawnCustomer nextId ty nm ms).customerSlots = g.customerSlots.set i (some c) ∧
      (g.spawnCustomer nextId ty nm ms).customers = g.customers ++ [c] ∧
      g.customerSlots.get? i = some none ∧
      (∀ j < i, ∀ x, g.customerSlots.get? j = some x → x.isSome) := by
  have hspec := findNullIdx_spec _ _ hf
  unfold Game.spawnCustomer
  rw [hf]
  cases hpend : g.pendingRealMessages with
  | nil =>
    exact ⟨(Customer.init nextId ty nm ms none none none false).assignSlot i,
      rfl, rfl, rfl, hspec.1, hspec.2⟩
  | cons m rest =>
    exact ⟨(Customer.init nextId ty nm ms
        (some m.name) (some m.message) (some m.phone) true).assignSlot i,
      rfl, rfl, rfl, hspec.1, hspec.2⟩

theorem Game.spawnCustomer_slotsInv (g : Game) (nextId : Nat) (ty : CustomerType)
    (nm ms : String) (h : g.slotsInv) :
    (g.spawnCustomer nextId ty nm ms).slotsInv := by
  cases hf : findNullIdx g.customerSlots with
  | none =>
    unfold Game.spawnCustomer
    rw [hf]
    exact h
  | some i =>
    obtain ⟨c, hci, hslots, hcs, hget, hfirst⟩ :=
      Game.spawnCustomer_first_free g nextId ty nm ms i hf
    constructor
    · rw [hslots, List.length_set]; exact h.1
    · rw [hcs, hslots, List.length_append,
        occupiedCount_set_some g.customerSlots i c hget]
      have := h.2
      simp
      omega

theorem Game.removeFinished_slotsInv (g : Game) (h : g.slotsInv) :
    (g.removeFinished).slotsInv := by
  unfold Game.removeFinished
  constructor
  · rw [length_foldl_clear, h.1]
  · have h1 := occupiedCount_foldl_clear g.customers g.customerSlots
    have h2 := length_filter_removable g.customers
    have h3 := h.2
    simp only at h2 ⊢
    omega

theorem Game.slotsInv_of (g g' : Game) (h : g.slotsInv)
    (hc : g'.customers.length = g.customers.length)
    (hs : g'.customerSlots = g.customerSlots) : g'.slotsInv := by
  constructor
  · rw [hs]; exact h.1
  · rw [hc, hs]; exact h.2

theorem Game.tickCombo_fields (g : Game) (d : ℚ) :
    (g.tickCombo d).customers = g.customers ∧
    (g.tickCombo d).customerSlots = g.customerSlots ∧
    (g.tickCombo d).score = g.score ∧
    (g.tickCombo d).maxCombo = g.maxCombo ∧
    (g.tickCombo d).comboCount ≤ g.comboCount ∧
    (g.tickCombo d).pendingRealMessages = g.pendingRealMessages ∧
    (g.tickCombo d).bottles = g.bottles ∧
    (g.tickCombo d).difficulty = g.difficulty := by
  unfold Game.tickCombo
  split_ifs with h1
  · dsimp only
    split_ifs <;> simp
  · simp

theorem Game.tickApiPoll_fields (g : Game) (d : ℚ) :
    (g.tickApiPoll d).customers = g.customers ∧
    (g.tickApiPoll d).customerSlots = g.customerSlots ∧
    (g.tickApiPoll d).score = g.score ∧
    (g.tickApiPoll d).maxCombo = g.maxCombo ∧
    (g.tickApiPoll d).comboCount = g.comboCount ∧
    (g.tickApiPoll d).pendingRealMessages = g.pendingRealMessages ∧
    (g.tickApiPoll d).bottles = g.bottles ∧
    (g.tickApiPoll d).difficulty = g.difficulty := by
  unfold Game.tickApiPoll
  dsimp only
  split_ifs <;> simp

theorem Game.updateCustomers_fields (g : Game) (d : ℚ) :
    (g.updateCustomers d).customers.length = g.customers.length ∧
    (g.updateCustomers d).customerSlots = g.customerSlots ∧
    (g.updateCustomers d).score = g.score ∧
    (g.updateCustomers d).maxCombo = g.maxCombo ∧
    (g.updateCustomers d).comboCount = g.comboCount ∧
    (g.updateCustomers d).pendingRealMessages = g.pendingRealMessages ∧
    (g.updateCustomers d).bottles = g.bottles := by
  unfold Game.updateCustomers
  simp

theorem Game.updateBottles_fields (g : Game) (d now : ℚ) :
    (g.updateBottles d now).customers = g.customers ∧
    (g.updateBottles d now).customerSlots = g.customerSlots ∧
    (g.updateBottles d now).score = g.score ∧
    (g.updateBottles d now).maxCombo = g.maxCombo ∧
    (g.updateBottles d now).comboCount = g.comboCount ∧
    (g.updateBottles d now).pendingRealMessages = g.pendingRealMessages := by
  unfold Game.updateBottles
  simp

theorem Game.updateDifficulty_fields (g : Game) :
    (g.updateDifficulty).customers = g.customers ∧
    (g.updateDifficulty).customerSlots = g.customerSlots ∧
    (g.updateDifficulty).score = g.score ∧
    (g.updateDifficulty).maxCombo = g.maxCombo ∧
    (g.updateDifficulty).comboCount = g.comboCount ∧
    (g.updateDifficulty).pendingRealMessages = g.pendingRealMessages ∧
    (g.updateDifficulty).bottles = g.bottles := by
  unfold Game.updateDifficulty
  split_ifs <;> simp

theorem enqueueStep_fields (g : Game) (msg : IncomingMsg) :
    (enqueueStep g msg).customers = g.customers ∧
    (enqueueStep g msg).customerSlots = g.customerSlots ∧
    (enqueueStep g msg).score = g.score ∧
    (enqueueStep g msg).maxCombo = g.maxCombo ∧
    (enqueueStep g msg).comboCount = g.comboCount ∧
    (enqueueStep g msg).bottles = g.bottles := by
  unfold enqueueStep
  dsimp only
  split_ifs <;> simp

theorem foldl_enqueueStep_fields (msgs : List IncomingMsg) :
    ∀ g : Game,
      (msgs.foldl enqueueStep g).customers = g.customers ∧
      (msgs.foldl enqueueStep g).customerSlots = g.customerSlots ∧
      (msgs.foldl enqueueStep g).score = g.score ∧
      (msgs.foldl enqueueStep g).maxCombo = g.maxCombo ∧
      (msgs.foldl enqueueStep g).comboCount = g.comboCount ∧
      (msgs.foldl enqueueStep g).bottles = g.bottles := by
  induction msgs with
  | nil => intro g; exact ⟨rfl, rfl, rfl, rfl, rfl, rfl⟩
  | cons m ms ih =>
    intro g
    have h1 := enqueueStep_fields g m
    have h2 := ih (enqueueStep g m)
    rw [List.foldl_cons]
    exact ⟨h2.1.trans h1.1, h2.2.1.trans h1.2.1, h2.2.2.1.trans h1.2.2.1,
      h2.2.2.2.1.trans h1.2.2.2.1, h2.2.2.2.2.1.trans h1.2.2.2.2.1,
      h2.2.2.2.2.2.trans h1.2.2.2.2.2⟩

theorem Game.enqueueIncoming_fields (g : Game) (msgs : List IncomingMsg) :
    (g.enqueueIncoming msgs).customers = g.customers ∧
    (g.enqueueIncoming msgs).customerSlots = g.customerSlots ∧
    (g.enqueueIncoming msgs).score = g.score ∧
    (g.enqueueIncoming msgs).maxCombo = g.maxCombo ∧
    (g.enqueueIncoming msgs).comboCount = g.comboCount ∧
    (g.enqueueIncoming msgs).bottles = g.bottles := by
  unfold Game.enqueueIncoming
  split_ifs
  · exact ⟨rfl, rfl, rfl, rfl, rfl, rfl⟩
  · exact foldl_enqueueStep_fields msgs g

theorem Game.tickSpawn_slotsInv (g : Game) (d : ℚ) (nextId : Nat) (ty : CustomerType)
    (nm ms : String) (h : g.slotsInv) :
    (g.tickSpawn d nextId ty nm ms).slotsInv := by
  unfold Game.tickSpawn
  dsimp only
  split_ifs
  · exact Game.spawnCustomer_slotsInv _ nextId ty nm ms ⟨h.1, h.2⟩
  · exact ⟨h.1, h.2⟩

theorem Game.serveCustomer_slotsInv (g : Game) (ci : Nat) (now : ℚ) (h : g.slotsInv) :
    (g.serveCustomer ci now).slotsInv := by
  have hs := Game.serveCustomer_structure g ci now
  exact Game.slotsInv_of g _ h hs.2.1 hs.1

theorem Game.processLost_slotsInv (g : Game) (h : g.slotsInv) :
    (g.processLost).slotsInv := by
  have hs := Game.processLost_fields g
  exact Game.slotsInv_of g _ h hs.2.1 hs.1

theorem Game.update_slotsInv (g : Game) (d now : ℚ) (nextId : Nat) (ty : CustomerType)
    (nm ms : String) (h : g.slotsInv) :
    (g.update d now nextId ty nm ms).slotsInv := by
  unfold Game.update
  split_ifs
  · exact h
  · have h1 : (g.tickCombo d).slotsInv := by
      have hf := Game.tickCombo_fields g d
      exact Game.slotsInv_of g _ h (by rw [hf.1]) hf.2.1
    have h2 : ((g.tickCombo d).tickApiPoll d).slotsInv := by
      have hf := Game.tickApiPoll_fields (g.tickCombo d) d
      exact Game.slotsInv_of _ _ h1 (by rw [hf.1]) hf.2.1
    have h3 := Game.tickSpawn_slotsInv _ d nextId ty nm ms h2
    have h4 : (((((g.tickCombo d).tickApiPoll d).tickSpawn
        d nextId ty nm ms)).updateCustomers d).slotsInv := by
      have hf := Game.updateCustomers_fields (((g.tickCombo d).tickApiPoll d).tickSpawn
        d nextId ty nm ms) d
      exact Game.slotsInv_of _ _ h3 hf.1 hf.2.1
    have h5 := Game.processLost_slotsInv _ h4
    have h6 := Game.removeFinished_slotsInv _ h5
    have h7 : ((((((g.tickCombo d).tickApiPoll d).tickSpawn
        d nextId ty nm ms).updateCustomers d).processLost).removeFinished.updateBottles
        d now).slotsInv := by
      have hf := Game.updateBottles_fields ((((((g.tickCombo d).tickApiPoll d).tickSpawn
        d nextId ty nm ms).updateCustomers d).processLost).removeFinished) d now
      exact Game.slotsInv_of _ _ h6 (by rw [hf.1]) hf.2.1
    have hf := Game.updateDifficulty_fields (((((((g.tickCombo d).tickApiPoll d).tickSpawn
        d nextId ty nm ms).updateCustomers d).processLost).removeFinished).updateBottles d now)
    exact Game.slotsInv_of _ _ h7 (by rw [hf.1]) hf.2.1

theorem Game.enqueueIncoming_slotsInv (g : Game) (msgs : List IncomingMsg)
    (h : g.slotsInv) : (g.enqueueIncoming msgs).slotsInv := by
  have hf := Game.enqueueIncoming_fields g msgs
  exact Game.slotsInv_of g _ h (by rw [hf.1]) hf.2.1

theorem Game.startGame_slotsInv (g : Game) : (g.startGame).slotsInv := by
  constructor
  · simp [Game.startGame]
  · simp [Game.startGame, occupiedCount]

/-- C4: the capacity invariant.  `slotsInv` (fixed slots-array size plus
one occupied slot per active customer) bounds both the occupied-slot count
and the active-customer count by `MAX_CUSTOMERS`; a spawn attempt with no
free slot changes nothing (in particular the pending queue is left intact);
a spawn with a free slot places the new customer into the first free index;
and the invariant is established by `startGame` and preserved by spawning,
removal, serving, the full update tick and message ingestion. -/
theorem C4_capacity_invariant :
    (∀ g : Game, g.slotsInv →
      occupiedCount g.customerSlots ≤ MAX_CUSTOMERS ∧
      g.customers.length ≤ MAX_CUSTOMERS) ∧
    (∀ (g : Game) (nextId : Nat) (ty : CustomerType) (nm ms : String),
      (∀ s ∈ g.customerSlots, s.isSome) → g.spawnCustomer nextId ty nm ms = g) ∧
    (∀ (g : Game) (nextId : Nat) (ty : CustomerType) (nm ms : String) (i : Nat),
      findNullIdx g.customerSlots = some i →
      ∃ c : Customer, c.slotIndex = some i ∧
        (g.spawnCustomer nextId ty nm ms).customerSlots =
          g.customerSlots.set i (some c) ∧
        (g.spawnCustomer nextId ty nm ms).customers = g.customers ++ [c] ∧
        g.customerSlots.get? i = some none ∧
        (∀ j < i, ∀ x, g.customerSlots.get? j = some x → x.isSome)) ∧
    (∀ g : Game, (g.startGame).slotsInv) ∧
    (∀ (g : Game) (nextId : Nat) (ty : CustomerType) (nm ms : String),
      g.slotsInv → (g.spawnCustomer nextId ty nm ms).slotsInv) ∧
    (∀ g : Game, g.slotsInv → (g.removeFinished).slotsInv) ∧
    (∀ (g : Game) (ci : Nat) (now : ℚ), g.slotsInv → (g.serveCustomer ci now).slotsInv) ∧
    (∀ (g : Game) (d now : ℚ) (nextId : Nat) (ty : CustomerType) (nm ms : String),
      g.slotsInv → (g.update d now nextId ty nm ms).slotsInv) ∧
    (∀ (g : Game) (msgs : List IncomingMsg),
      g.slotsInv → (g.enqueueIncoming msgs).slotsInv) := by
  refine ⟨?_, ?_, ?_, ?_, ?_, ?_, ?_, ?_, ?_⟩
  · intro g h
    refine ⟨?_, ?_⟩
    · rw [← h.1]; exact occupiedCount_le_length g.customerSlots
    · exact le_trans h.2 (le_trans (occupiedCount_le_length _) (le_of_eq h.1))
  · exact fun g nextId ty nm ms h => Game.spawnCustomer_full g nextId ty nm ms h
  · exact fun g nextId ty nm ms i hf => Game.spawnCustomer_first_free g nextId ty nm ms i hf
  · exact fun g => Game.startGame_slotsInv g
  · exact fun g nextId ty nm ms h => Game.spawnCustomer_slotsInv g nextId ty nm ms h
  · exact fun g h => Game.removeFinished_slotsInv g h
  · exact fun g ci now h => Game.serveCustomer_slotsInv g ci now h
  · exact fun g d now nextId ty nm ms h => Game.update_slotsInv g d now nextId ty nm ms h
  · exact fun g msgs h => Game.enqueueIncoming_slotsInv g msgs h

theorem C4_witness :
    (occupiedCount c4FullGame.customerSlots ≤ MAX_CUSTOMERS ∧
      c4FullGame.customers.length ≤ MAX_CUSTOMERS) ∧
    c4FullGame.spawnCustomer 7 officeWorker "Zed" "later" = c4FullGame := by
  refine ⟨C4_capacity_invariant.1 c4FullGame ⟨rfl, by decide⟩,
    C4_capacity_invariant.2.1 c4FullGame 7 officeWorker "Zed" "later" (by decide)⟩

/-! ## C5: dedup of real-customer correlation keys -/

theorem enqueueStep_skip (g : Game) (msg : IncomingMsg)
    (h : (∃ c ∈ g.customers, c.phone = msg.phone) ∨
         (∃ m ∈ g.pendingRealMessages, m.phone = msg.phone)) :
    enqueueStep g msg = g := by
  unfold enqueueStep
  dsimp only
  rw [if_pos]
  simp only [List.any_eq_true, Bool.or_eq_true, decide_eq_true_eq]
  rcases h with ⟨c, hc, he⟩ | ⟨m, hm, he⟩
  · exact Or.inl ⟨c, hc, he⟩
  · exact Or.inr ⟨m, hm, he⟩

theorem enqueueStep_enqueue (g : Game) (msg : IncomingMsg)
    (h1 : ∀ c ∈ g.customers, c.phone ≠ msg.phone)
    (h2 : ∀ m ∈ g.pendingRealMessages, m.phone ≠ msg.phone) :
    (enqueueStep g msg).pendingRealMessages =
      g.pendingRealMessages ++
        [{ name := msg.displayName, message := msg.preview, phone := msg.phone,
           isReal := true, messageId := msg.mid }] ∧
    (enqueueStep g msg).customers = g.customers := by
  unfold enqueueStep
  dsimp only
  rw [if_neg]
  · exact ⟨rfl, rfl⟩
  · simp only [List.any_eq_true, Bool.or_eq_true, decide_eq_true_eq]
    push_neg
    exact ⟨fun c hc => h1 c hc, fun m hm => h2 m hm⟩

theorem enqueueStep_dedupInv (g : Game) (msg : IncomingMsg) (h : g.dedupInv) :
    (enqueueStep g msg).dedupInv := by
  by_cases hex : (∃ c ∈ g.customers, c.phone = msg.phone) ∨
      (∃ m ∈ g.pendingRealMessages, m.phone = msg.phone)
  · rw [enqueueStep_skip g msg hex]; exact h
  · push_neg at hex
    have he := enqueueStep_enqueue g msg hex.1 hex.2
    unfold Game.dedupInv Game.realKeys at h ⊢
    rw [he.1, he.2, List.map_append, ← List.append_assoc]
    rw [List.nodup_append]
    refine ⟨h, List.nodup_singleton _, ?_⟩
    intro x hx hx1
    simp only [List.map_cons, List.map_nil, List.mem_singleton] at hx1
    subst hx1
    rcases List.mem_append.mp hx with hxa | hxp
    · obtain ⟨c, hc, hcp⟩ := List.mem_map.mp hxa
      exact hex.1 c (List.mem_of_mem_filter hc) hcp
    · obtain ⟨m, hm, hmp⟩ := List.mem_map.mp hxp
      exact hex.2 m hm hmp

theorem foldl_enqueueStep_dedupInv (msgs : List IncomingMsg) :
    ∀ g : Game, g.dedupInv → (msgs.foldl enqueueStep g).dedupInv := by
  induction msgs with
  | nil => exact fun g h => h
  | cons m ms ih =>
    intro g h
    rw [List.foldl_cons]
    exact ih (enqueueStep g m) (enqueueStep_dedupInv g m h)

theorem Game.enqueueIncoming_dedupInv (g : Game) (msgs : List IncomingMsg)
    (h : g.dedupInv) : (g.enqueueIncoming msgs).dedupInv := by
  unfold Game.enqueueIncoming
  split_ifs
  · exact h
  · exact foldl_enqueueStep_dedupInv msgs g h

theorem Game.spawnCustomer_dedupInv (g : Game) (nextId : Nat) (ty : CustomerType)
    (nm ms : String) (h : g.dedupInv)
    (hphones : ∀ m ∈ g.pendingRealMessages, m.phone ≠ "") :
    (g.spawnCustomer nextId ty nm ms).dedupInv := by
  unfold Game.spawnCustomer
  cases hf : findNullIdx g.customerSlots with
  | none => exact h
  | some i =>
    cases hpend : g.pendingRealMessages with
    | nil =>
      unfold Game.dedupInv Game.realKeys at h ⊢
      dsimp only
      rw [hpend] at h
      simp only [List.filter_append, List.map_append, hpend]
      have hreal : ((Customer.init nextId ty nm ms none none none false).assignSlot
          i).isReal = false := rfl
      simp [List.filter_cons, hreal]
      simpa using h
    | cons m rest =>
      have hm : m.phone ≠ "" := hphones m (by rw [hpend]; exact List.mem_cons_self m rest)
      have hphone : ((Customer.init nextId ty nm ms
          (some m.name) (some m.message) (some m.phone) true).assignSlot i).phone =
          m.phone := by
        unfold Customer.assignSlot Customer.init strOr
        simp [hm]
      have hreal : ((Customer.init nextId ty nm ms
          (some m.name) (some m.message) (some m.phone) true).assignSlot i).isReal =
          true := rfl
      unfold Game.dedupInv Game.realKeys at h ⊢
      dsimp only
      rw [hpend] at h
      simp only [List.filter_append, List.map_append, List.filter_cons, hreal]
      simp only [List.map_cons, List.map_nil] at h ⊢
      simp only [if_pos, List.map_cons, hphone]
      rw [List.append_assoc]
      simpa using h

theorem Game.removeFinished_dedupInv (g : Game) (h : g.dedupInv) :
    (g.removeFinished).dedupInv := by
  unfold Game.dedupInv Game.realKeys at h ⊢
  unfold Game.removeFinished
  apply List.Nodup.sublist ?_ h
  apply List.Sublist.append ?_ (List.Sublist.refl _)
  apply List.Sublist.map
  apply List.Sublist.filter
  exact List.filter_sublist _

/-- C5: at most one entity (active customer or pending record) carries any
real correlation key.  Message ingestion skips a record whose phone is
already present among active customers or the queue, enqueues it otherwise,
and this enqueue-time check alone preserves the dedup invariant across
ingestion, dequeue-and-spawn and removal (spawn needs only that queued
phones are nonempty, which ingestion guarantees for real records). -/
theorem C5_dedup_invariant :
    (∀ (g : Game) (msg : IncomingMsg),
      ((∃ c ∈ g.customers, c.phone = msg.phone) ∨
       (∃ m ∈ g.pendingRealMessages, m.phone = msg.phone)) →
      enqueueStep g msg = g) ∧
    (∀ (g : Game) (msg : IncomingMsg),
      (∀ c ∈ g.customers, c.phone ≠ msg.phone) →
      (∀ m ∈ g.pendingRealMessages, m.phone ≠ msg.phone) →
      (enqueueStep g msg).pendingRealMessages =
        g.pendingRealMessages ++
          [{ name := msg.displayName, message := msg.preview, phone := msg.phone,
             isReal := true, messageId := msg.mid }]) ∧
    (∀ (g : Game) (msgs : List IncomingMsg),
      g.dedupInv → (g.enqueueIncoming msgs).dedupInv) ∧
    (∀ (g : Game) (nextId : Nat) (ty : CustomerType) (nm ms : String),
      g.dedupInv → (∀ m ∈ g.pendingRealMessages, m.phone ≠ "") →
      (g.spawnCustomer nextId ty nm ms).dedupInv) ∧
    (∀ g : Game, g.dedupInv → (g.removeFinished).dedupInv) :=
  ⟨enqueueStep_skip,
   fun g msg h1 h2 => (enqueueStep_enqueue g msg h1 h2).1,
   Game.enqueueIncoming_dedupInv,
   Game.spawnCustomer_dedupInv,
   Game.removeFinished_dedupInv⟩

theorem C5_witness :
    (c5Game.enqueueIncoming [c5Msg]).dedupInv ∧
    ((c5Game.enqueueIncoming [c5Msg]).spawnCustomer 8 officeWorker "Ana" "fine").dedupInv := by
  have h0 : c5Game.dedupInv := by simp [Game.dedupInv, Game.realKeys, c5Game]
  have h1 := C5_dedup_invariant.2.2.1 c5Game [c5Msg] h0
  refine ⟨h1, C5_dedup_invariant.2.2.2.1 _ 8 officeWorker "Ana" "fine" h1 ?_⟩
  intro m hm
  simp [Game.enqueueIncoming, enqueueStep, c5Game, c5Msg, IncomingMsg.displayName,
    IncomingMsg.preview, strOr] at hm
  rw [hm]
  decide

/-! ## C10: score and maxCombo monotonicity -/

theorem Customer.serve_patience_fields (c : Customer) :
    (c.serve).2.patience = c.patience ∧ (c.serve).2.maxPatience = c.maxPatience := by
  unfold Customer.serve
  split <;> exact ⟨rfl, rfl⟩

theorem Game.spawnCustomer_counters (g : Game) (nextId : Nat) (ty : CustomerType)
    (nm ms : String) :
    (g.spawnCustomer nextId ty nm ms).score = g.score ∧
    (g.spawnCustomer nextId ty nm ms).maxCombo = g.maxCombo ∧
    (g.spawnCustomer nextId ty nm ms).comboCount = g.comboCount := by
  unfold Game.spawnCustomer
  cases hf : findNullIdx g.customerSlots with
  | none => exact ⟨rfl, rfl, rfl⟩
  | some i =>
    cases hpend : g.pendingRealMessages with
    | nil => exact ⟨rfl, rfl, rfl⟩
    | cons m rest => exact ⟨rfl, rfl, rfl⟩

theorem Game.tickSpawn_counters (g : Game) (d : ℚ) (nextId : Nat) (ty : CustomerType)
    (nm ms : String) :
    (g.tickSpawn d nextId ty nm ms).score = g.score ∧
    (g.tickSpawn d nextId ty nm ms).maxCombo = g.maxCombo ∧
    (g.tickSpawn d nextId ty nm ms).comboCount = g.comboCount := by
  unfold Game.tickSpawn
  dsimp only
  split_ifs
  · exact Game.spawnCustomer_counters _ nextId ty nm ms
  · exact ⟨rfl, rfl, rfl⟩

theorem Game.update_counters (g : Game) (d now : ℚ) (nextId : Nat) (ty : CustomerType)
    (nm ms : String) :
    (g.update d now nextId ty nm ms).score = g.score ∧
    (g.update d now nextId ty nm ms).maxCombo = g.maxCombo ∧
    (g.update d now nextId ty nm ms).comboCount ≤ g.comboCount := by
  unfold Game.update
  split_ifs
  · exact ⟨rfl, rfl, le_rfl⟩
  · have h1 := Game.tickCombo_fields g d
    have h2 := Game.tickApiPoll_fields (g.tickCombo d) d
    have h3 := Game.tickSpawn_counters ((g.tickCombo d).tickApiPoll d) d nextId ty nm ms
    have h4 := Game.updateCustomers_fields (((g.tickCombo d).tickApiPoll d).tickSpawn
      d nextId ty nm ms) d
    have h5 := Game.processLost_fields ((((g.tickCombo d).tickApiPoll d).tickSpawn
      d nextId ty nm ms).updateCustomers d)
    have h6 : ∀ g' : Game, (g'.removeFinished).score = g'.score ∧
        (g'.removeFinished).maxCombo = g'.maxCombo ∧
        (g'.removeFinished).comboCount = g'.comboCount :=
      fun g' => ⟨rfl, rfl, rfl⟩
    have h7 := Game.updateBottles_fields (((((g.tickCombo d).tickApiPoll d).tickSpawn
      d nextId ty nm ms).updateCustomers d).processLost).removeFinished d now
    have h8 := Game.updateDifficulty_fields ((((((g.tickCombo d).tickApiPoll d).tickSpawn
      d nextId ty nm ms).updateCustomers d).processLost).removeFinished.updateBottles d now)
    refine ⟨?_, ?_, ?_⟩
    · rw [h8.2.2.1, h7.2.2.1, (h6 _).1, h5.2.2.1, h4.2.2.1, h3.1, h2.2.2.1, h1.2.2.1]
    · rw [h8.2.2.2.1, h7.2.2.2.1, (h6 _).2.1, h5.2.2.2.1, h4.2.2.2.1, h3.2.1,
        h2.2.2.2.1, h1.2.2.2.1]
    · rw [h8.2.2.2.2.1, h7.2.2.2.2.1, (h6 _).2.2]
      refine le_trans h5.2.2.2.2.1 ?_
      rw [h4.2.2.2.2.1, h3.2.2, h2.2.2.2.2.1]
      exact h1.2.2.2.2.1

theorem Game.serveCustomer_monotone (g : Game) (ci : Nat) (now : ℚ)
    (hp : ∀ c ∈ g.customers, 0 ≤ c.patience ∧ 0 ≤ c.maxPatience) :
    g.score ≤ (g.serveCustomer ci now).score ∧
    g.maxCombo ≤ (g.serveCustomer ci now).maxCombo ∧
    (g.comboInv → (g.serveCustomer ci now).comboInv) := by
  unfold Game.serveCustomer
  split
  · exact ⟨le_rfl, le_rfl, fun h => h⟩
  · split
    · rename_i bottle customer hbg hcg
      split_ifs with hl hcool hserve
      · exact ⟨le_rfl, le_rfl, fun h => h⟩
      · exact ⟨le_rfl, le_rfl, fun h => h⟩
      · exact ⟨le_rfl, le_rfl, fun h => h⟩
      · have hc : customer ∈ g.customers := List.get?_mem hcg
        have hpc := hp customer hc
        have hsp := Customer.serve_patience_fields customer
        have hpct : (0 : ℚ) ≤ (customer.serve).2.getPatiencePercent := by
          unfold Customer.getPatiencePercent
          rw [hsp.1, hsp.2]
          have := div_nonneg hpc.1 hpc.2
          positivity
        have hfloor : (0 : ℤ) ≤
            Rat.floor ((customer.serve).2.getPatiencePercent * PATIENCE_BONUS_MULTIPLIER) := by
          rw [ratFloor_eq_intFloor]
          apply Int.le_floor.mpr
          push_cast
          have : (0 : ℚ) ≤ PATIENCE_BONUS_MULTIPLIER := by
            norm_num [PATIENCE_BONUS_MULTIPLIER]
          exact mul_nonneg hpct this
        have hcombo : (0 : ℤ) ≤ (g.comboCount : ℤ) * COMBO_BONUS := by
          have : (0 : ℤ) ≤ (g.comboCount : ℤ) := Int.ofNat_nonneg _
          have h25 : (0 : ℤ) ≤ COMBO_BONUS := by norm_num [COMBO_BONUS]
          exact mul_nonneg this h25
        refine ⟨?_, ?_, ?_⟩
        · apply le_add_of_nonneg_right
          have hbase : (0 : ℤ) ≤ BASE_SCORE := by norm_num [BASE_SCORE]
          omega
        · exact le_max_left _ _
        · intro _
          exact le_max_right _ _
    · exact ⟨le_rfl, le_rfl, fun h => h⟩

theorem Game.pause_counters (g : Game) :
    (g.pause).score = g.score ∧ (g.pause).maxCombo = g.maxCombo ∧
    (g.pause).comboCount = g.comboCount := by
  unfold Game.pause
  split_ifs <;> exact ⟨rfl, rfl, rfl⟩

theorem Game.resume_counters (g : Game) :
    (g.resume).score = g.score ∧ (g.resume).maxCombo = g.maxCombo ∧
    (g.resume).comboCount = g.comboCount := by
  unfold Game.resume
  split_ifs <;> exact ⟨rfl, rfl, rfl⟩

theorem Game.selectBottle_counters (g : Game) (i : Nat) :
    (g.selectBottle i).score = g.score ∧ (g.selectBottle i).maxCombo = g.maxCombo ∧
    (g.selectBottle i).comboCount = g.comboCount := by
  unfold Game.selectBottle
  split
  · split_ifs <;> exact ⟨rfl, rfl, rfl⟩
  · exact ⟨rfl, rfl, rfl⟩

/-- C10: within a round, every operation other than `startGame` leaves the
score and `maxCombo` non-decreasing and preserves `comboCount ≤ maxCombo`;
the combo resets performed by the tick (combo-timer expiry and storm-off
accounting) lower only `comboCount`, never score or `maxCombo`. -/
theorem C10_monotonicity :
    (∀ (g : Game) (d now : ℚ) (nextId : Nat) (ty : CustomerType) (nm ms : String),
      g.score ≤ (g.update d now nextId ty nm ms).score ∧
      g.maxCombo ≤ (g.update d now nextId ty nm ms).maxCombo ∧
      (g.comboInv → (g.update d now nextId ty nm ms).comboInv)) ∧
    (∀ (g : Game) (ci : Nat) (now : ℚ),
      (∀ c ∈ g.customers, 0 ≤ c.patience ∧ 0 ≤ c.maxPatience) →
      g.score ≤ (g.serveCustomer ci now).score ∧
      g.maxCombo ≤ (g.serveCustomer ci now).maxCombo ∧
      (g.comboInv → (g.serveCustomer ci now).comboInv)) ∧
    (∀ (g : Game) (msgs : List IncomingMsg),
      g.score ≤ (g.enqueueIncoming msgs).score ∧
      g.maxCombo ≤ (g.enqueueIncoming msgs).maxCombo ∧
      (g.comboInv → (g.enqueueIncoming msgs).comboInv)) ∧
    (∀ g : Game,
      (g.pause).score = g.score ∧ (g.resume).score = g.score ∧
      (g.gameOverStep).score = g.score ∧
      (g.pause).maxCombo = g.maxCombo ∧ (g.resume).maxCombo = g.maxCombo ∧
      (g.gameOverStep).maxCombo = g.maxCombo ∧
      (g.comboInv → (g.pause).comboInv ∧ (g.resume).comboInv ∧
        (g.gameOverStep).comboInv)) ∧
    (∀ (g : Game) (i : Nat),
      g.score ≤ (g.selectBottle i).score ∧
      g.maxCombo ≤ (g.selectBottle i).maxCombo ∧
      (g.comboInv → (g.selectBottle i).comboInv)) := by
  refine ⟨?_, ?_, ?_, ?_, ?_⟩
  · intro g d now nextId ty nm ms
    have h := Game.update_counters g d now nextId ty nm ms
    exact ⟨le_of_eq h.1.symm, le_of_eq h.2.1.symm,
      fun hi => le_trans h.2.2 (le_trans hi (le_of_eq h.2.1.symm))⟩
  · exact Game.serveCustomer_monotone
  · intro g msgs
    have h := Game.enqueueIncoming_fields g msgs
    refine ⟨le_of_eq h.2.2.1.symm, le_of_eq h.2.2.2.1.symm, fun hi => ?_⟩
    unfold Game.comboInv
    rw [h.2.2.2.2.1, h.2.2.2.1]
    exact hi
  · intro g
    have hp := Game.pause_counters g
    have hr := Game.resume_counters g
    refine ⟨hp.1, hr.1, rfl, hp.2.1, hr.2.1, rfl, fun hi => ?_⟩
    unfold Game.comboInv
    rw [hp.2.2, hp.2.1, hr.2.2, hr.2.1]
    exact ⟨hi, hi, hi⟩
  · intro g i
    have h := Game.selectBottle_counters g i
    refine ⟨le_of_eq h.1.symm, le_of_eq h.2.1.symm, fun hi => ?_⟩
    unfold Game.comboInv
    rw [h.2.2, h.2.1]
    exact hi

theorem C10_witness :
    c10Game.score ≤ (c10Game.serveCustomer 0 0).score ∧
    c10Game.maxCombo ≤ (c10Game.serveCustomer 0 0).maxCombo ∧
    (c10Game.serveCustomer 0 0).comboCount ≤ (c10Game.serveCustomer 0 0).maxCombo := by
  have h := C10_monotonicity.2.1 c10Game 0 0 ?_
  · refine ⟨h.1, h.2.1, h.2.2 ?_⟩
    norm_num [Game.comboInv, c10Game]
  · intro c hc
    simp [c10Game] at hc
    rw [hc]
    norm_num [c10Customer, Customer.init, officeWorker]

end MessageBar
